import Mathlib

set_option maxRecDepth 100000

/-!
Shallow embedding of the empathetic-response engine of `app/empathy.py`
(class `EmpatheticResponseGenerator`).  Text is modelled as `List Char`,
Python strings are converted with `lc`.  All lexicon tables are copied
verbatim from `__init__`; every operation is a computable, structurally
recursive function that mirrors the corresponding Python method.
-/

/-- Characters of a string literal (Python `str` as a list of characters). -/
def lc (s : String) : List Char := s.data

/-- Python whitespace test for `str.split` / `str.strip` (ASCII range). -/
def isSpaceCh (c : Char) : Bool :=
  decide (c.toNat = 32 ∨ (9 ≤ c.toNat ∧ c.toNat ≤ 13))

/-- Regex word character `[a-zA-Z0-9_]`, used by the `\b` boundaries in
`convert_to_second_person`. -/
def isWordCh (c : Char) : Bool :=
  decide ((48 ≤ c.toNat ∧ c.toNat ≤ 57) ∨ (65 ≤ c.toNat ∧ c.toNat ≤ 90) ∨
    (97 ≤ c.toNat ∧ c.toNat ≤ 122) ∨ c.toNat = 95)

/-- ASCII lowercase letter test (Python `str.islower` on one character). -/
def isLowerAlpha (c : Char) : Bool := decide (97 ≤ c.toNat ∧ c.toNat ≤ 122)

/-- ASCII uppercase letter test (Python `str.isupper` on one character). -/
def isUpperAlpha (c : Char) : Bool := decide (65 ≤ c.toNat ∧ c.toNat ≤ 90)

/-- ASCII lowering of one character (Python `str.lower`, ASCII fragment). -/
def toLowerCh (c : Char) : Char :=
  if 65 ≤ c.toNat ∧ c.toNat ≤ 90 then Char.ofNat (c.toNat + 32) else c

/-- ASCII raising of one character (Python `str.upper`, ASCII fragment). -/
def toUpperCh (c : Char) : Char :=
  if 97 ≤ c.toNat ∧ c.toNat ≤ 122 then Char.ofNat (c.toNat - 32) else c

/-- Python `text.lower()`. -/
def pyLower (l : List Char) : List Char := l.map toLowerCh

/-- Python substring test `p in s`. -/
def isSubB (p : List Char) : List Char → Bool
  | [] => p.isEmpty
  | c :: rest => p.isPrefixOf (c :: rest) || isSubB p rest

/-- Helper of `splitWS`: accumulates the current word in reverse. -/
def splitWSAux (cur : List Char) : List Char → List (List Char)
  | [] => if cur.isEmpty then [] else [cur.reverse]
  | c :: rest =>
    if isSpaceCh c then
      if cur.isEmpty then splitWSAux [] rest else cur.reverse :: splitWSAux [] rest
    else splitWSAux (c :: cur) rest

/-- Python `str.split()` with no argument: split on whitespace runs,
dropping empty pieces. -/
def splitWS (l : List Char) : List (List Char) := splitWSAux [] l

/-- Number of words, Python `len(s.split())`. -/
def wordCount (l : List Char) : Nat := (splitWS l).length

/-- Python `str.strip()`. -/
def pyStrip (l : List Char) : List Char :=
  ((l.dropWhile isSpaceCh).reverse.dropWhile isSpaceCh).reverse

/-- Ordered association-list lookup (Python `dict[k]` read access). -/
def lookupL {α : Type} : List (List Char × α) → List Char → Option α
  | [], _ => none
  | (k, v) :: rest, k' => if k = k' then some v else lookupL rest k'

/-- Python `random.choice(pool)` where the random draw is made explicit as
an index `i`; every index hits an actual element of a non-empty pool. -/
def pickL {α : Type} (l : List α) (dflt : α) (i : Nat) : α :=
  l.getD (i % l.length) dflt

/-- The `intensity_words` table of `__init__`. -/
def intensity_words : List (List Char × List (List Char)) :=
  [(lc "high", [lc "extremely", lc "absolutely", lc "completely", lc "totally",
      lc "really", lc "very", lc "so", lc "incredibly", lc "devastated",
      lc "furious", lc "ecstatic", lc "terrified", lc "overwhelmed"]),
   (lc "medium", [lc "quite", lc "rather", lc "pretty", lc "fairly",
      lc "somewhat", lc "moderately"]),
   (lc "low", [lc "a bit", lc "slightly", lc "kind of", lc "sort of",
      lc "a little"])]

/-- Python `word.isupper()`: at least one cased character and no lowercase
cased character (ASCII fragment). -/
def isUpperWord (w : List Char) : Bool :=
  w.any isUpperAlpha && !(w.any isLowerAlpha)

/-- Helper of `runScan`: `prev` is the previous character and `runLen` the
length of the streak of `prev` ending at the previous position.  A maximal
run is counted exactly once, when its length reaches three. -/
def runsAux (prev : Char) (runLen : Nat) : List Char → Nat
  | [] => 0
  | c :: rest =>
    if c == prev then
      (if runLen + 1 = 3 ∧ ¬ prev.toNat = 10 then 1 else 0) +
        runsAux prev (runLen + 1) rest
    else runsAux c 1 rest

/-- Count of `re.findall` matches of `(.)\1{2,}`: maximal runs of three or
more identical consecutive characters; `.` does not match a newline. -/
def runScan : List Char → Nat
  | [] => 0
  | c :: rest => runsAux c 1 rest

/-- Helper of `runScanSpecWords` (no newline exclusion). -/
def runsAuxSpec (prev : Char) (runLen : Nat) : List Char → Nat
  | [] => 0
  | c :: rest =>
    if c == prev then
      (if runLen + 1 = 3 then 1 else 0) + runsAuxSpec prev (runLen + 1) rest
    else runsAuxSpec c 1 rest

/-- Run count as the claim words it ("runs of 3 or more identical
consecutive characters"), with no newline exclusion; stated from the
specification's words for comparison against the source's `runScan`. -/
def runScanSpecWords : List Char → Nat
  | [] => 0
  | c :: rest => runsAuxSpec c 1 rest

/-- The score of `calculate_emotional_intensity`, term by term as in the
source lines computing `total`. -/
def intensityScore (text : List Char) : Nat :=
  let text_lower := pyLower text
  let exclamation_count := text.count '!'
  let question_count := text.count '?'
  let caps_words := ((splitWS text).filter
    (fun w => isUpperWord w && decide (1 < w.length))).length
  let high_score := (((lookupL intensity_words (lc "high")).getD []).filter
    (fun w => isSubB w text_lower)).length
  let medium_score := (((lookupL intensity_words (lc "medium")).getD []).filter
    (fun w => isSubB w text_lower)).length
  let repeated_letters := runScan text_lower
  exclamation_count * 2 + question_count + caps_words + high_score * 3 +
    medium_score + repeated_letters * 2

/-- `calculate_emotional_intensity`. -/
def calculate_emotional_intensity (text : List Char) : List Char :=
  if 4 < intensityScore text then lc "high_intensity"
  else if 1 < intensityScore text then lc "medium_intensity"
  else lc "low_intensity"

/-- The `emotion_mapping` table of `__init__`. -/
def emotion_mapping : List (List Char × List Char) :=
  [(lc "admiration", lc "positive"), (lc "amusement", lc "positive"),
   (lc "approval", lc "positive"), (lc "caring", lc "positive"),
   (lc "curiosity", lc "positive"), (lc "desire", lc "positive"),
   (lc "excitement", lc "positive"), (lc "gratitude", lc "positive"),
   (lc "joy", lc "positive"), (lc "love", lc "positive"),
   (lc "optimism", lc "positive"), (lc "pride", lc "positive"),
   (lc "realization", lc "positive"), (lc "relief", lc "positive"),
   (lc "anger", lc "negative"), (lc "annoyance", lc "negative"),
   (lc "disappointment", lc "negative"), (lc "disapproval", lc "negative"),
   (lc "disgust", lc "negative"), (lc "embarrassment", lc "negative"),
   (lc "fear", lc "negative"), (lc "grief", lc "negative"),
   (lc "nervousness", lc "negative"), (lc "remorse", lc "negative"),
   (lc "sadness", lc "negative"),
   (lc "confusion", lc "neutral"), (lc "surprise", lc "neutral"),
   (lc "neutral", lc "neutral")]

/-- The `empathetic_patterns` table of `__init__`: response templates per
handled emotion tag, each containing one `{context}` placeholder. -/
def empathetic_patterns : List (List Char × List (List Char)) :=
  [(lc "anger",
    [lc "I can really sense the frustration in your words about {context}. That level of anger is completely understandable given what you're dealing with.",
     lc "Your anger comes through clearly when you talk about {context}. It's natural to feel this heated when facing such challenges.",
     lc "I hear how infuriated you are by {context}. That sounds like an incredibly maddening situation to be in.",
     lc "The frustration you're feeling about {context} is so valid. Anyone would be upset dealing with something like that.",
     lc "I can feel how much {context} has gotten under your skin. That kind of anger shows how much this matters to you.",
     lc "It's clear that {context} has really pushed you to your limit. Your anger is a completely normal response to such treatment."]),
   (lc "sadness",
    [lc "I can feel the deep sadness in your words about {context}. That kind of pain must be so heavy to carry.",
     lc "The grief you're experiencing with {context} comes through so clearly. I'm sorry you're going through something this difficult.",
     lc "Your sadness about {context} is palpable. It takes real strength to share something this painful.",
     lc "I hear the heartbreak in what you're saying about {context}. That level of sorrow would be overwhelming for anyone.",
     lc "The pain you're feeling from {context} is so evident. You're dealing with something truly heart-wrenching.",
     lc "I can sense how much {context} is weighing on your heart. That depth of sadness shows how deeply you care."]),
   (lc "fear",
    [lc "I can hear the real fear in your voice about {context}. Those concerns feel very legitimate and understandable.",
     lc "The anxiety you're experiencing around {context} makes complete sense. That uncertainty would be frightening for anyone.",
     lc "Your worry about {context} comes through so clearly. It's natural to feel scared when facing something unknown like this.",
     lc "I can feel how much {context} is causing you to worry. That kind of fear shows you're really thinking about what matters.",
     lc "The apprehension you have about {context} is completely valid. Anyone would feel nervous in your situation.",
     lc "I understand why {context} feels so threatening. Your fear is a normal response to such uncertainty."]),
   (lc "joy",
    [lc "The happiness radiating from your words about {context} is absolutely infectious! I can feel your joy through every sentence.",
     lc "Your excitement about {context} is so wonderful to hear. It's beautiful when life brings us these bright moments.",
     lc "I love the enthusiasm in your voice when you talk about {context}. That kind of joy is truly special.",
     lc "The delight you're feeling about {context} really shines through. It's amazing how happiness can transform everything.",
     lc "Your pure joy regarding {context} is so heartwarming. These are the moments that make everything worthwhile.",
     lc "I can practically feel you glowing when you describe {context}. That level of happiness is absolutely magical."]),
   (lc "surprise",
    [lc "What a shocking turn of events with {context}! I can only imagine how that must have caught you completely off guard.",
     lc "The surprise you experienced with {context} really comes through. That must have been such an unexpected moment.",
     lc "I can hear how absolutely stunned you were by {context}. Life certainly has a way of throwing us curveballs.",
     lc "That revelation about {context} sounds like it completely changed your perspective. What an unexpected development!",
     lc "The astonishment in your words about {context} is so clear. Sometimes life surprises us in the most unexpected ways.",
     lc "I can feel how bewildered you must be by {context}. That kind of surprise can really shake up everything we thought we knew."]),
   (lc "disgust",
    [lc "I can understand why {context} would be so off-putting to you. That kind of revulsion is a completely natural response.",
     lc "Your strong reaction to {context} makes perfect sense. Some things are just genuinely disturbing and wrong.",
     lc "The repulsion you feel toward {context} is completely justified. That sounds truly unpleasant to deal with.",
     lc "I hear how much {context} bothers you on a fundamental level. That kind of disgust shows your strong moral compass.",
     lc "Your aversion to {context} is completely understandable. Some situations are just inherently repulsive.",
     lc "I can feel how much {context} goes against your core values. That level of disgust shows you know what's right."]),
   (lc "disappointment",
    [lc "The disappointment in your words about {context} is so palpable. That kind of letdown cuts really deep.",
     lc "I can hear how much {context} fell short of your hopes. That disappointment must sting so much.",
     lc "Your sense of being let down by {context} comes through clearly. Unmet expectations can be so crushing.",
     lc "The disillusionment you're feeling about {context} is completely understandable. That's such a hard pill to swallow.",
     lc "I can feel how deflated you are by {context}. When our hopes are dashed, it leaves such an empty feeling.",
     lc "Your disappointment about {context} is so valid. It hurts when reality doesn't match what we were hoping for."]),
   (lc "embarrassment",
    [lc "I can sense how mortified you feel about {context}. That kind of embarrassment is so uncomfortable and overwhelming.",
     lc "The self-consciousness you're experiencing from {context} is completely understandable. We've all been in those cringe-worthy moments.",
     lc "Your embarrassment about {context} comes through so clearly. Those moments when we feel exposed are truly awful.",
     lc "I hear how much {context} made you want to disappear. That level of embarrassment is genuinely painful.",
     lc "The shame you're feeling about {context} is so relatable. Sometimes we just want the ground to swallow us up.",
     lc "I can feel how much {context} is making you second-guess yourself. Embarrassment has a way of making everything feel magnified."]),
   (lc "neutral",
    [lc "Thank you for sharing your thoughts about {context}. I can hear that this is important to you, and I'm here to listen.",
     lc "I appreciate you opening up about {context}. Your perspective on this situation is really valuable.",
     lc "What you're sharing about {context} gives me insight into what you're experiencing. I'm glad you felt comfortable expressing this.",
     lc "I hear what you're saying about {context}. It's clear you've been thinking deeply about this situation.",
     lc "Your reflection on {context} shows a lot of thoughtfulness. I'm honored that you're sharing this with me.",
     lc "I can see that {context} has been on your mind. Thank you for trusting me with these thoughts."])]

/-- The `follow_up_phrases` table of `__init__` (the engine state at
initialization; `generate_empathetic_response` can mutate it in place). -/
def follow_up_phrases : List (List Char × List (List Char)) :=
  [(lc "high_intensity",
    [lc "Would you like to talk more about this?",
     lc "How are you coping with everything right now?",
     lc "Is there anything specific that might help you feel better?",
     lc "Would it help to explore this situation further?",
     lc "What kind of support would be most helpful for you?",
     lc "Do you have people around you who understand what you're going through?",
     lc "How long have you been dealing with feelings this intense?",
     lc "What usually helps you when things feel this overwhelming?"]),
   (lc "medium_intensity",
    [lc "How are you feeling about everything overall?",
     lc "Would you like to share more about your experience?",
     lc "What's been on your mind lately about this?",
     lc "How can I best support you through this situation?",
     lc "What would help you feel better about this?",
     lc "Have you been able to process these feelings with anyone?",
     lc "What aspects of this situation feel most challenging?",
     lc "How has this been affecting your daily life?"]),
   (lc "low_intensity",
    [lc "Thanks for sharing this with me.",
     lc "I'm here if you need to talk more about it.",
     lc "How has your day been overall?",
     lc "What else has been on your mind?",
     lc "How are you doing with everything else in your life?",
     lc "Is there anything else you'd like to explore?",
     lc "What other thoughts or feelings have come up for you?",
     lc "How do you usually handle situations like this?"])]

/-- The `context_keywords` table of `__init__`. -/
def context_keywords : List (List Char × List (List Char)) :=
  [(lc "work", [lc "job", lc "work", lc "boss", lc "colleague", lc "office",
      lc "meeting", lc "project", lc "deadline", lc "career", lc "workplace",
      lc "coworker", lc "manager", lc "employee", lc "salary", lc "promotion",
      lc "interview", lc "resignation", lc "fired", lc "hired", lc "overtime",
      lc "corporate", lc "company", lc "supervisor", lc "team",
      lc "performance", lc "evaluation", lc "professional", lc "business"]),
   (lc "relationship", [lc "partner", lc "friend", lc "family",
      lc "relationship", lc "love", lc "breakup", lc "dating", lc "boyfriend",
      lc "girlfriend", lc "husband", lc "wife", lc "marriage", lc "divorce",
      lc "mother", lc "father", lc "sister", lc "brother", lc "parents",
      lc "children", lc "kids", lc "ex", lc "crush", lc "romantic",
      lc "social", lc "friendship", lc "argue", lc "fight"]),
   (lc "health", [lc "sick", lc "doctor", lc "hospital", lc "pain",
      lc "health", lc "medicine", lc "treatment", lc "illness", lc "medical",
      lc "diagnosis", lc "surgery", lc "therapy", lc "symptoms", lc "tired",
      lc "exhausted", lc "headache", lc "fever", lc "appointment",
      lc "prescription"]),
   (lc "school", [lc "school", lc "teacher", lc "student", lc "exam",
      lc "grade", lc "homework", lc "class", lc "university", lc "college",
      lc "study", lc "education", lc "degree", lc "semester", lc "course",
      lc "professor", lc "assignment", lc "thesis", lc "graduation",
      lc "academic"]),
   (lc "financial", [lc "money", lc "financial", lc "budget", lc "debt",
      lc "bills", lc "expense", lc "income", lc "savings", lc "loan",
      lc "credit", lc "payment", lc "broke", lc "expensive", lc "cheap",
      lc "afford", lc "purchase", lc "investment", lc "mortgage", lc "rent",
      lc "tax"]),
   (lc "personal", [lc "myself", lc "personal", lc "identity", lc "self",
      lc "confidence", lc "growth", lc "anxiety", lc "depression",
      lc "stress", lc "mental", lc "therapy", lc "counseling", lc "lonely",
      lc "overwhelmed", lc "tired", lc "emotional", lc "feelings",
      lc "thoughts"]),
   (lc "life_events", [lc "birthday", lc "wedding", lc "funeral",
      lc "graduation", lc "moving", lc "travel", lc "vacation", lc "holiday",
      lc "celebration", lc "anniversary", lc "milestone"]),
   (lc "loss_grief", [lc "death", lc "died", lc "funeral", lc "grief",
      lc "loss", lc "goodbye", lc "memorial", lc "miss", lc "gone",
      lc "passed away", lc "mourning", lc "grieving"])]

/-- The `context_patterns` table of `__init__`. -/
def context_patterns : List (List Char × List (List Char)) :=
  [(lc "work_stress", [lc "deadline", lc "pressure", lc "overtime",
      lc "workload", lc "demanding"]),
   (lc "work_conflict", [lc "boss", lc "manager", lc "colleague",
      lc "workplace drama", lc "unfair"]),
   (lc "relationship_conflict", [lc "argue", lc "fight", lc "disagree",
      lc "tension", lc "misunderstanding"]),
   (lc "relationship_loss", [lc "breakup", lc "divorce", lc "separation",
      lc "ended", lc "over"]),
   (lc "health_concern", [lc "worried about", lc "symptoms", lc "pain",
      lc "sick", lc "medical"]),
   (lc "academic_pressure", [lc "exam", lc "test", lc "grade", lc "failing",
      lc "stressed about school"]),
   (lc "financial_stress", [lc "can't afford", lc "broke", lc "bills",
      lc "debt", lc "money problems"]),
   (lc "personal_growth", [lc "learning", lc "improving", lc "changing",
      lc "developing", lc "working on myself"]),
   (lc "life_transition", [lc "moving", lc "new job", lc "starting",
      lc "ending", lc "change"])]

/-- Space-padded whole-word test used by `identify_context`:
`f' {keyword} ' in f' {text_lower} '`. -/
def wholeWordSpaced (kw tl : List Char) : Bool :=
  isSubB (' ' :: (kw ++ [' '])) (' ' :: (tl ++ [' ']))

/-- Per-keyword contribution of the scoring loop of `identify_context`:
3 points for a space-delimited whole word, else 1 point for a bare
substring, else 0. -/
def kwPoints (kw tl : List Char) : Nat :=
  if wholeWordSpaced kw tl then 3 else if isSubB kw tl then 1 else 0

/-- Accumulated score of one topic's keyword list in `identify_context`. -/
def topicScore (kws : List (List Char)) (tl : List Char) : Nat :=
  kws.foldl (fun acc kw => acc + kwPoints kw tl) 0

/-- The `found_keywords` list of one topic in `identify_context`: a keyword
is recorded whenever either branch fired. -/
def topicFound (kws : List (List Char)) (tl : List Char) : List (List Char) :=
  kws.filter (fun kw => decide (0 < kwPoints kw tl))

/-- First loop of `identify_context`: per-topic scores (insertion order)
and the concatenated `key_elements`. -/
def scanTopics : List (List Char × List (List Char)) → List Char →
    List (List Char × Nat) × List (List Char)
  | [], _ => ([], [])
  | (topic, kws) :: rest, tl =>
    let s := topicScore kws tl
    let (scoresRest, elemsRest) := scanTopics rest tl
    if 0 < s then ((topic, s) :: scoresRest, topicFound kws tl ++ elemsRest)
    else (scoresRest, elemsRest)

/-- Python `d[k] = d.get(k, 0) + v` on an insertion-ordered dict. -/
def bump : List (List Char × Nat) → List Char → Nat → List (List Char × Nat)
  | [], k, v => [(k, v)]
  | (k', v') :: rest, k, v =>
    if k' = k then (k', v' + v) :: rest else (k', v') :: bump rest k v

/-- Python `pattern_name.split('_')[0]`. -/
def underscoreHead (l : List Char) : List Char :=
  l.takeWhile (fun c => !(c == '_'))

/-- Second loop of `identify_context`: every pattern phrase found as a
substring appends the pattern name to `detected_patterns` and adds 5 points
to the parent topic key `pattern_name.split('_')[0]`. -/
def scanPatterns : List (List Char × List (List Char)) → List Char →
    List (List Char × Nat) → List (List Char × Nat) × List (List Char)
  | [], _, sc => (sc, [])
  | (pname, pws) :: rest, tl, sc =>
    let hits := pws.filter (fun w => isSubB w tl)
    let sc' := hits.foldl (fun s _ => bump s (underscoreHead pname) 5) sc
    let (scF, dF) := scanPatterns rest tl sc'
    (scF, hits.map (fun _ => pname) ++ dF)

/-- Python `max(d, key=d.get)` over an insertion-ordered dict: keeps the
first key attaining the maximal value. -/
def pyMaxAux (best : List Char × Nat) : List (List Char × Nat) → List Char × Nat
  | [] => best
  | p :: rest => if best.2 < p.2 then pyMaxAux p rest else pyMaxAux best rest

/-- Python `list(set(xs))`, modelled with first-occurrence order (CPython's
set iteration order for strings is unspecified). -/
def dedupFirst : List (List Char) → List (List Char)
  | [] => []
  | x :: rest => x :: (dedupFirst rest).filter (fun y => !(y == x))

/-- The `past_indicators` list of `identify_context`. -/
def past_indicators : List (List Char) :=
  [lc "was", lc "were", lc "had", lc "did", lc "yesterday", lc "last",
   lc "ago", lc "before", lc "used to"]

/-- The `present_indicators` list of `identify_context`. -/
def present_indicators : List (List Char) :=
  [lc "am", lc "is", lc "are", lc "now", lc "today", lc "currently",
   lc "right now"]

/-- The `future_indicators` list of `identify_context`. -/
def future_indicators : List (List Char) :=
  [lc "will", lc "going to", lc "tomorrow", lc "next", lc "soon",
   lc "planning", lc "hope"]

/-- The `emotion_triggers` list of `identify_context`. -/
def emotion_triggers : List (List Char) :=
  [lc "frustrated", lc "angry", lc "upset", lc "sad", lc "happy",
   lc "excited", lc "worried", lc "anxious", lc "scared", lc "disappointed",
   lc "overwhelmed", lc "stressed", lc "confused"]

/-- The dictionary returned by `identify_context`.  `scores` additionally
records the full `context_scores` dict (insertion order preserved) so that
properties of the argmax can be stated. -/
structure ContextInfo where
  main_context : List Char
  sub_context : Option (List Char)
  key_elements : List (List Char)
  emotional_triggers : List (List Char)
  temporal_past : Bool
  temporal_present : Bool
  temporal_future : Bool
  detected_patterns : List (List Char)
  context_score : Nat
  scores : List (List Char × Nat)
deriving DecidableEq

/-- `identify_context`. -/
def identify_context (text : List Char) : ContextInfo :=
  let text_lower := pyLower text
  let (scores1, key_elements) := scanTopics context_keywords text_lower
  let (context_scores, detected_patterns) :=
    scanPatterns context_patterns text_lower scores1
  let past := past_indicators.any (fun w => isSubB w text_lower)
  let present := present_indicators.any (fun w => isSubB w text_lower)
  let future := future_indicators.any (fun w => isSubB w text_lower)
  let emotional_triggers :=
    emotion_triggers.filter (fun w => isSubB w text_lower)
  let main_context :=
    match context_scores with
    | [] => lc "general"
    | p :: rest => (pyMaxAux p rest).1
  let relevant := detected_patterns.filter
    (fun p => main_context.isPrefixOf p)
  let sub_context := relevant.head?
  { main_context := main_context
    sub_context := sub_context
    key_elements := dedupFirst key_elements
    emotional_triggers := emotional_triggers
    temporal_past := past
    temporal_present := present
    temporal_future := future
    detected_patterns := detected_patterns
    context_score := (lookupL context_scores main_context).getD 0
    scores := context_scores }

/-- Case-insensitive literal prefix match (the regex flag `re.IGNORECASE`
restricted to the ASCII letters occurring in the conversion patterns). -/
def ciStarts : List Char → List Char → Bool
  | [], _ => true
  | _ :: _, [] => false
  | p :: ps, c :: rest => toLowerCh p == toLowerCh c && ciStarts ps rest

/-- Match of a pattern `\bLIT\b` at the head of `s` for a literal `LIT`
ending in a word character: the literal matches case-insensitively and the
following character (if any) is not a word character.  The boundary before
the match is checked by the caller via its `prev` flag. -/
def wwAt (pat s : List Char) : Bool :=
  ciStarts pat s &&
    (match s.drop pat.length with
     | [] => true
     | d :: _ => !isWordCh d)

/-- One `re.sub(r'\bLIT\b', repl, s, flags=re.IGNORECASE)` pass for a
literal starting and ending in a word character.  `prev` records whether
the previous character of the original text is a word character; `skip`
counts original characters still being consumed by the previous match. -/
def subWWAux (pat repl : List Char) (prev : Bool) (skip : Nat) :
    List Char → List Char
  | [] => []
  | c :: rest =>
    match skip with
    | k + 1 => subWWAux pat repl (isWordCh c) k rest
    | 0 =>
      if prev = false ∧ pat ≠ [] ∧ wwAt pat (c :: rest) = true then
        repl ++ subWWAux pat repl (isWordCh c) (pat.length - 1) rest
      else c :: subWWAux pat repl (isWordCh c) 0 rest

/-- Whole-word substitution over a full text (one conversion rule). -/
def subWW (pat repl text : List Char) : List Char :=
  subWWAux pat repl false 0 text

/-- Scan deciding whether `re.sub(r'\bLIT\b', ..., flags=re.IGNORECASE)`
would match anywhere; same boundary conditions as `subWWAux`.  This is
also the regex notion of a case-insensitive whole-word occurrence. -/
def hasWWAux (pat : List Char) (prev : Bool) : List Char → Bool
  | [] => false
  | c :: rest =>
    if prev = false ∧ pat ≠ [] ∧ wwAt pat (c :: rest) = true then true
    else hasWWAux pat (isWordCh c) rest

/-- Whole-word case-insensitive occurrence of a first-person marker. -/
def hasWWMatch (pat text : List Char) : Bool := hasWWAux pat false text

/-- The `conversions` dict of `convert_to_second_person`, in source order
(each regex `\bLIT\b` is represented by its literal `LIT`). -/
def conversions : List (List Char × List Char) :=
  [(lc "I am", lc "you are"), (lc "I'm", lc "you're"),
   (lc "I was", lc "you were"), (lc "I have", lc "you have"),
   (lc "I've", lc "you've"), (lc "I had", lc "you had"),
   (lc "I'd", lc "you'd"), (lc "I will", lc "you will"),
   (lc "I'll", lc "you'll"), (lc "I can", lc "you can"),
   (lc "I can't", lc "you can't"), (lc "I cannot", lc "you cannot"),
   (lc "I do", lc "you do"), (lc "I don't", lc "you don't"),
   (lc "I did", lc "you did"), (lc "I didn't", lc "you didn't"),
   (lc "I feel", lc "you feel"), (lc "I think", lc "you think"),
   (lc "I know", lc "you know"), (lc "I want", lc "you want"),
   (lc "I need", lc "you need"), (lc "I like", lc "you like"),
   (lc "I love", lc "you love"), (lc "I hate", lc "you hate"),
   (lc "I get", lc "you get"), (lc "I got", lc "you got"),
   (lc "I went", lc "you went"), (lc "I go", lc "you go"),
   (lc "I see", lc "you see"), (lc "I saw", lc "you saw"),
   (lc "I hear", lc "you hear"), (lc "I heard", lc "you heard"),
   (lc "I", lc "you"), (lc "me", lc "you"), (lc "my", lc "your"),
   (lc "mine", lc "yours"), (lc "myself", lc "yourself")]

/-- `convert_to_second_person`. -/
def convert_to_second_person (text : List Char) : List Char :=
  let result := conversions.foldl (fun acc pr => subWW pr.1 pr.2 acc) text
  match result, text with
  | r :: rs, t :: _ =>
    if isLowerAlpha r && isUpperAlpha t then toUpperCh r :: rs else r :: rs
  | _, _ => result

/-- Sentence-delimiter character class `[.!?]` of `extract_key_phrases`. -/
def isPunctSent (c : Char) : Bool := c == '.' || c == '!' || c == '?'

/-- Scanner for `re.split(r'[.!?]\s+', s)`: a delimiter is one punctuation
character followed by a maximal non-empty whitespace run; `inDelim` is true
while that whitespace run is being consumed. -/
def sentStep (cur : List Char) (inDelim : Bool) : List Char → List (List Char)
  | [] => [cur.reverse]
  | c :: rest =>
    if inDelim && isSpaceCh c then sentStep cur true rest
    else if isPunctSent c &&
        (match rest with | [] => false | d :: _ => isSpaceCh d) then
      cur.reverse :: sentStep [] true rest
    else sentStep (c :: cur) false rest

/-- Python `re.split(r'[.!?]\s+', text.strip())` of `extract_key_phrases`. -/
def splitSentences (text : List Char) : List (List Char) :=
  sentStep [] false (pyStrip text)

/-- Relevance score of one candidate sentence in `extract_key_phrases`:
+2 per matched key element, +3 per emotional trigger, +1 per intensity
word of any tier. -/
def phraseRelevance (info : ContextInfo) (sentence_lower : List Char) : Nat :=
  2 * (info.key_elements.filter (fun e => isSubB e sentence_lower)).length +
  3 * (info.emotional_triggers.filter (fun e => isSubB e sentence_lower)).length +
  ((intensity_words.map Prod.snd).flatten.filter
    (fun w => isSubB w sentence_lower)).length

/-- Descending insertion keeping earlier elements first on ties; folding it
over the scored list reproduces Python's stable `sort(reverse=True)`. -/
def insertDesc (x : List Char × Nat) :
    List (List Char × Nat) → List (List Char × Nat)
  | [] => [x]
  | y :: rest => if y.2 < x.2 then x :: y :: rest else y :: insertDesc x rest

/-- Stable descending sort by score (`key_phrases.sort(key=..., reverse=True)`). -/
def sortDescStable (l : List (List Char × Nat)) : List (List Char × Nat) :=
  l.foldl (fun acc x => insertDesc x acc) []

/-- `extract_key_phrases`. -/
def extract_key_phrases (text : List Char) (info : ContextInfo) :
    List (List Char) :=
  let sentences := splitSentences text
  let meaningful :=
    (sentences.filter (fun s => decide (3 < wordCount s))).map pyStrip
  let scored := meaningful.filterMap (fun s =>
    let r := phraseRelevance info (pyLower s)
    if 0 < r then some (s, r) else none)
  ((sortDescStable scored).take 3).map Prod.fst

/-- The `specific_summaries` table of `_generate_specific_context_summary`. -/
def specific_summaries : List (List Char × List Char) :=
  [(lc "work_stress", lc "the intense pressure and demands you're facing at work"),
   (lc "work_conflict", lc "the difficult situation you're dealing with at your workplace"),
   (lc "relationship_conflict", lc "the tensions and disagreements in your relationship"),
   (lc "relationship_loss", lc "the painful end of your relationship"),
   (lc "health_concern", lc "the health issues you're worried about"),
   (lc "academic_pressure", lc "the academic stress and pressure you're under"),
   (lc "financial_stress", lc "the financial difficulties you're going through"),
   (lc "personal_growth", lc "the personal changes and growth you're experiencing"),
   (lc "life_transition", lc "the major life changes you're navigating")]

/-- Plain replacement of every occurrence of a literal pattern; `skip`
counts characters still being consumed by the previous match (Python
`str.replace`, and `str.format` restricted to one placeholder name). -/
def replAux (pat repl : List Char) (skip : Nat) : List Char → List Char
  | [] => []
  | c :: rest =>
    match skip with
    | k + 1 => replAux pat repl k rest
    | 0 =>
      if pat ≠ [] ∧ pat.isPrefixOf (c :: rest) then
        repl ++ replAux pat repl (pat.length - 1) rest
      else c :: replAux pat repl 0 rest

/-- Python `s.replace(pat, repl)` for a non-empty literal pattern. -/
def replaceAllCh (pat repl s : List Char) : List Char := replAux pat repl 0 s

/-- `_generate_specific_context_summary` (its unused `key_phrases`
parameter is omitted). -/
def generate_specific_context_summary (main_context sub_context : List Char)
    (emotional_triggers : List (List Char)) (past future : Bool) : List Char :=
  let base0 := (lookupL specific_summaries sub_context).getD
    (lc "what you're experiencing with " ++ main_context)
  let base1 :=
    if past then
      lc "what you went through with " ++
        replaceAllCh (lc "you're") (lc "you were") base0
    else if future then lc "what you're anticipating with " ++ base0
    else base0
  match emotional_triggers with
  | [] => base1
  | tr :: _ => lc "how " ++ (tr ++ (lc " you're feeling about " ++ base1))

/-- The `context_descriptions` table of `_generate_general_context_summary`. -/
def context_descriptions : List (List Char × List Char) :=
  [(lc "work", lc "your work situation"),
   (lc "relationship", lc "your relationship situation"),
   (lc "health", lc "your health concerns"),
   (lc "school", lc "your academic situation"),
   (lc "financial", lc "your financial concerns"),
   (lc "personal", lc "what you're going through personally"),
   (lc "life_events", lc "this important event in your life"),
   (lc "loss_grief", lc "the loss you're experiencing")]

/-- Python `" and ".join(xs)`. -/
def joinAnd : List (List Char) → List Char
  | [] => []
  | [e] => e
  | e :: rest => e ++ (lc " and " ++ joinAnd rest)

/-- Python `re.sub(r'^(you\s+)', '', phrase, flags=re.IGNORECASE)`:
anchored removal of a leading "you" plus a non-empty whitespace run. -/
def dropLeadingYou (l : List Char) : List Char :=
  match l with
  | a :: b :: c :: rest =>
    if toLowerCh a == 'y' && toLowerCh b == 'o' && toLowerCh c == 'u' &&
        (match rest with | [] => false | d :: _ => isSpaceCh d) then
      rest.dropWhile isSpaceCh
    else l
  | _ => l

/-- `_generate_general_context_summary` (its unused trigger and temporal
parameters are omitted). -/
def generate_general_context_summary (main_context : List Char)
    (key_phrases key_elements : List (List Char)) : List Char :=
  match key_phrases with
  | best :: _ =>
    let converted0 := convert_to_second_person best
    let converted1 := pyStrip (dropLeadingYou converted0)
    let converted2 := pyLower converted1
    if [lc "the", lc "this", lc "what", lc "how", lc "that"].any
        (fun p => p.isPrefixOf converted2) then converted2
    else lc "what happened with " ++ converted2
  | [] =>
    let base := (lookupL context_descriptions main_context).getD
      (lc "what you're going through")
    let prominent := (key_elements.filter (fun e => decide (3 < e.length))).take 2
    if prominent.isEmpty then base
    else lc "the challenges with " ++ joinAnd prominent

/-- `generate_context_summary`. -/
def generate_context_summary (text : List Char) : List Char :=
  let info := identify_context text
  let key_phrases := extract_key_phrases text info
  match info.sub_context with
  | some sub =>
    generate_specific_context_summary info.main_context sub
      info.emotional_triggers info.temporal_past info.temporal_future
  | none =>
    generate_general_context_summary info.main_context key_phrases
      info.key_elements

/-- The emotion-resolution step of `generate_empathetic_response` (its
"Paso 2"); the three sub-branches of the positive category in the source
all yield "joy" and are collapsed accordingly. -/
def resolveEmotion (context_info : ContextInfo) (text emotion0 : List Char) :
    List Char :=
  let emotion := pyLower emotion0
  if (empathetic_patterns.map Prod.fst).contains emotion then emotion
  else
    let emotion_category := (lookupL emotion_mapping emotion).getD (lc "neutral")
    let text_lower := pyLower text
    if emotion_category = lc "positive" then lc "joy"
    else if emotion_category = lc "negative" then
      if context_info.sub_context = some (lc "work_stress") ∨
          ([lc "frustrated", lc "angry", lc "mad", lc "infuriated"].any
            (fun w => isSubB w text_lower)) = true then lc "anger"
      else if context_info.sub_context = some (lc "relationship_loss") ∨
          context_info.sub_context = some (lc "loss_grief") ∨
          ([lc "sad", lc "depressed", lc "heartbroken", lc "devastated"].any
            (fun w => isSubB w text_lower)) = true then lc "sadness"
      else if ([lc "scared", lc "afraid", lc "worried", lc "anxious",
          lc "nervous"].any (fun w => isSubB w text_lower)) = true then lc "fear"
      else if ([lc "disappointed", lc "let down", lc "expected",
          lc "hoped"].any (fun w => isSubB w text_lower)) = true then
        lc "disappointment"
      else if ([lc "embarrassed", lc "ashamed", lc "humiliated",
          lc "mortified"].any (fun w => isSubB w text_lower)) = true then
        lc "embarrassment"
      else if ([lc "disgusted", lc "repulsed", lc "sick", lc "revolting"].any
          (fun w => isSubB w text_lower)) = true then lc "disgust"
      else if context_info.main_context = lc "work" ∨
          context_info.main_context = lc "school" then lc "anger"
      else lc "sadness"
    else lc "neutral"

/-- The `work_specific_followups` list of `generate_empathetic_response`. -/
def work_specific_followups : List (List Char) :=
  [lc "How are you managing the stress at work?",
   lc "What support do you have in your workplace?",
   lc "Have you been able to talk to anyone about this situation?"]

/-- The `relationship_followups` list of `generate_empathetic_response`. -/
def relationship_followups : List (List Char) :=
  [lc "Do you have support from friends or family right now?",
   lc "How are you taking care of yourself through this?",
   lc "What has been helping you process these feelings?"]

/-- The `transitions` list of `generate_empathetic_response`. -/
def transitions : List (List Char) :=
  [lc "", lc "I'm curious, ", lc "I wonder, ",
   lc "If you don't mind me asking, "]

/-- The strong-pattern word list used for the high-intensity filter in
`generate_empathetic_response`. -/
def strong_pattern_words : List (List Char) :=
  [lc "really", lc "completely", lc "absolutely", lc "deeply", lc "truly",
   lc "so", lc "incredibly"]

/-- Python `d[k] = v` on an insertion-ordered dict; models the in-place
`follow_up_options.extend(...)` mutation of the aliased list stored in
`self.follow_up_phrases[intensity]`. -/
def upsert {α : Type} : List (List Char × α) → List Char → α →
    List (List Char × α)
  | [], k, v => [(k, v)]
  | (k', v') :: rest, k, v =>
    if k' = k then (k', v) :: rest else (k', v') :: upsert rest k v

/-- Observable outcome of one `generate_empathetic_response` call: the
resolved emotion tag, the context summary, the intensity level, the two
randomly selected pool elements, the optional transition, the returned
string, and the `follow_up_phrases` table as it stands after the call. -/
structure GenResult where
  resolved_emotion : List Char
  context_summary : List Char
  intensity : List Char
  selected_pattern : List Char
  main_response : List Char
  follow_up : List Char
  transition : List Char
  response : List Char
  follow_up_phrases_after : List (List Char × List (List Char))
deriving DecidableEq

/-- The `available_patterns` pool of `generate_empathetic_response`:
`self.empathetic_patterns.get(emotion, self.empathetic_patterns['neutral'])`. -/
def availablePatternsFor (em : List Char) : List (List Char) :=
  (lookupL empathetic_patterns em).getD
    ((lookupL empathetic_patterns (lc "neutral")).getD [])

/-- The high-intensity preference filter of `generate_empathetic_response`:
for high intensity, keep only templates containing a strong word, unless
that filter would empty the pool. -/
def filterByIntensity (intensity : List Char) (pool : List (List Char)) :
    List (List Char) :=
  if intensity = lc "high_intensity" then
    let preferred := pool.filter
      (fun p => strong_pattern_words.any (fun w => isSubB w (pyLower p)))
    if preferred.isEmpty then pool else preferred
  else pool

/-- The topic-specific follow-up extension of
`generate_empathetic_response`: `some` of the extended option list when
one of the two `extend` branches fires, else `none`. -/
def extendedFollowUps (main em intensity : List Char)
    (base : List (List Char)) : Option (List (List Char)) :=
  if main = lc "work" ∧ intensity = lc "high_intensity" then
    some (base ++ work_specific_followups)
  else if main = lc "relationship" ∧
      (em = lc "sadness" ∨ em = lc "anger") then
    some (base ++ relationship_followups)
  else none

/-- `generate_empathetic_response`.  `fu` is the current
`self.follow_up_phrases` table (the only state the method can mutate);
`i1`, `i2`, `i3` are the explicit outcomes of the successive
`random.choice` draws for the template, the follow-up and the transition. -/
def generate_empathetic_response
    (fu : List (List Char × List (List Char)))
    (text emotion : List Char) (i1 i2 i3 : Nat) : GenResult :=
  let context_info := identify_context text
  let em := resolveEmotion context_info text emotion
  let context_summary := generate_context_summary text
  let intensity := calculate_emotional_intensity text
  let available := filterByIntensity intensity (availablePatternsFor em)
  let selected_pattern := pickL available [] i1
  let main_response := replaceAllCh (lc "{context}") context_summary
    selected_pattern
  let base_options := (lookupL fu intensity).getD []
  let extended :=
    extendedFollowUps context_info.main_context em intensity base_options
  let follow_up_options := extended.getD base_options
  let fuAfter :=
    match extended with
    | some opts => upsert fu intensity opts
    | none => fu
  let follow_up := pickL follow_up_options [] i2
  if intensity = lc "high_intensity" then
    { resolved_emotion := em, context_summary := context_summary,
      intensity := intensity, selected_pattern := selected_pattern,
      main_response := main_response, follow_up := follow_up,
      transition := [], response := main_response ++ ' ' :: follow_up,
      follow_up_phrases_after := fuAfter }
  else
    let transition := pickL transitions [] i3
    { resolved_emotion := em, context_summary := context_summary,
      intensity := intensity, selected_pattern := selected_pattern,
      main_response := main_response, follow_up := follow_up,
      transition := transition,
      response := main_response ++ ' ' :: (transition ++ pyLower follow_up),
      follow_up_phrases_after := fuAfter }

/-- The left-brace character, written by code point to keep it out of
string templates. -/
def braceCh : Char := Char.ofNat 123

/-- The 9-member `ContextTopic` enumeration named by the specification. -/
def context_topic_enum : List (List Char) :=
  [lc "work", lc "relationship", lc "health", lc "school", lc "financial",
   lc "personal", lc "life_events", lc "loss_grief", lc "general"]

/-- Every name `identify_context` can actually return as `main_context`:
the keyword topics, the prefixes contributed by
`pattern_name.split('_')[0]` (which add "academic" and "life"), and the
"general" fallback. -/
def extended_topic_names : List (List Char) :=
  [lc "work", lc "relationship", lc "health", lc "school", lc "financial",
   lc "personal", lc "life_events", lc "loss_grief", lc "general",
   lc "academic", lc "life"]

/-- Intensity score as the claim words it, with runs of identical
characters counted over every character (no newline exclusion); stated
from the specification's words for comparison with `intensityScore`. -/
def intensityScoreSpecWords (text : List Char) : Nat :=
  let text_lower := pyLower text
  2 * text.count '!' + text.count '?' +
    ((splitWS text).filter
      (fun w => isUpperWord w && decide (1 < w.length))).length +
    3 * (((lookupL intensity_words (lc "high")).getD []).filter
      (fun w => isSubB w text_lower)).length +
    (((lookupL intensity_words (lc "medium")).getD []).filter
      (fun w => isSubB w text_lower)).length +
    2 * runScanSpecWords text_lower

/-- Intensity classification applied to the claim-worded score; stated
from the specification's words for comparison with
`calculate_emotional_intensity`. -/
def claimIntensityLevel (text : List Char) : List Char :=
  if 4 < intensityScoreSpecWords text then lc "high_intensity"
  else if 1 < intensityScoreSpecWords text then lc "medium_intensity"
  else lc "low_intensity"

theorem lower_upper_disjoint (c : Char) :
    (isLowerAlpha c && isUpperAlpha c) = false := by
  simp only [isLowerAlpha, isUpperAlpha, Bool.and_eq_true, decide_eq_true_eq,
    Bool.and_eq_false_iff, decide_eq_false_iff_not]
  omega

theorem toLowerCh_ne_brace {c : Char} (h : c ≠ braceCh) :
    toLowerCh c ≠ braceCh := by
  unfold toLowerCh
  split
  · rename_i hc
    obtain ⟨h1, h2⟩ := hc
    intro hEq
    generalize hg : c.toNat = n at h1 h2 hEq
    interval_cases n <;> exact absurd hEq (by decide)
  · exact h

theorem toUpperCh_ne_brace {c : Char} (h : c ≠ braceCh) :
    toUpperCh c ≠ braceCh := by
  unfold toUpperCh
  split
  · rename_i hc
    obtain ⟨h1, h2⟩ := hc
    intro hEq
    generalize hg : c.toNat = n at h1 h2 hEq
    interval_cases n <;> exact absurd hEq (by decide)
  · exact h

theorem mem_pyLower {c : Char} {l : List Char} (h : c ∈ pyLower l) :
    ∃ d ∈ l, toLowerCh d = c := by
  simpa [pyLower] using h

theorem pyLower_brace_free {l : List Char} (h : braceCh ∉ l) :
    braceCh ∉ pyLower l := by
  intro hc
  obtain ⟨d, hd, hEq⟩ := mem_pyLower hc
  exact toLowerCh_ne_brace (fun hdb => h (hdb ▸ hd)) hEq

theorem mem_pyStrip {c : Char} {l : List Char} (h : c ∈ pyStrip l) : c ∈ l := by
  unfold pyStrip at h
  rw [List.mem_reverse] at h
  have h2 := List.dropWhile_subset _ h
  rw [List.mem_reverse] at h2
  exact List.dropWhile_subset _ h2

theorem mem_replAux {c : Char} {pat repl : List Char} :
    ∀ {skip : Nat} {s : List Char}, c ∈ replAux pat repl skip s →
    c ∈ repl ∨ c ∈ s := by
  intro skip s
  induction s generalizing skip with
  | nil => intro h; simp [replAux] at h
  | cons x rest ih =>
    intro h
    cases skip with
    | succ k =>
      simp only [replAux] at h
      rcases ih h with h' | h'
      · exact Or.inl h'
      · exact Or.inr (List.mem_cons_of_mem _ h')
    | zero =>
      simp only [replAux] at h
      by_cases hcond : pat ≠ [] ∧ pat.isPrefixOf (x :: rest)
      · rw [if_pos hcond] at h
        rcases List.mem_append.mp h with h' | h'
        · exact Or.inl h'
        · rcases ih h' with h'' | h''
          · exact Or.inl h''
          · exact Or.inr (List.mem_cons_of_mem _ h'')
      · rw [if_neg hcond] at h
        rcases List.mem_cons.mp h with h' | h'
        · exact Or.inr (h' ▸ List.mem_cons_self _ _)
        · rcases ih h' with h'' | h''
          · exact Or.inl h''
          · exact Or.inr (List.mem_cons_of_mem _ h'')

theorem mem_replAux_skel {c : Char} {pat repl : List Char} :
    ∀ {skip : Nat} {s : List Char}, c ∈ replAux pat repl skip s →
    c ∈ repl ∨ c ∈ replAux pat [] skip s := by
  intro skip s
  induction s generalizing skip with
  | nil => intro h; simp [replAux] at h
  | cons x rest ih =>
    intro h
    cases skip with
    | succ k =>
      simp only [replAux] at h ⊢
      exact ih h
    | zero =>
      simp only [replAux] at h ⊢
      by_cases hcond : pat ≠ [] ∧ pat.isPrefixOf (x :: rest)
      · rw [if_pos hcond] at h ⊢
        rcases List.mem_append.mp h with h' | h'
        · exact Or.inl h'
        · rcases ih h' with h'' | h''
          · exact Or.inl h''
          · exact Or.inr (by simpa using h'')
      · rw [if_neg hcond] at h ⊢
        rcases List.mem_cons.mp h with h' | h'
        · exact Or.inr (h' ▸ List.mem_cons_self _ _)
        · rcases ih h' with h'' | h''
          · exact Or.inl h''
          · exact Or.inr (List.mem_cons_of_mem _ h'')

theorem mem_subWWAux {c : Char} {pat repl : List Char} :
    ∀ {prev : Bool} {skip : Nat} {s : List Char},
    c ∈ subWWAux pat repl prev skip s → c ∈ repl ∨ c ∈ s := by
  intro prev skip s
  induction s generalizing prev skip with
  | nil => intro h; simp [subWWAux] at h
  | cons x rest ih =>
    intro h
    cases skip with
    | succ k =>
      simp only [subWWAux] at h
      rcases ih h with h' | h'
      · exact Or.inl h'
      · exact Or.inr (List.mem_cons_of_mem _ h')
    | zero =>
      simp only [subWWAux] at h
      by_cases hcond : prev = false ∧ pat ≠ [] ∧ wwAt pat (x :: rest) = true
      · rw [if_pos hcond] at h
        rcases List.mem_append.mp h with h' | h'
        · exact Or.inl h'
        · rcases ih h' with h'' | h''
          · exact Or.inl h''
          · exact Or.inr (List.mem_cons_of_mem _ h'')
      · rw [if_neg hcond] at h
        rcases List.mem_cons.mp h with h' | h'
        · exact Or.inr (h' ▸ List.mem_cons_self _ _)
        · rcases ih h' with h'' | h''
          · exact Or.inl h''
          · exact Or.inr (List.mem_cons_of_mem _ h'')

theorem subWWAux_id_of_no_match {pat repl : List Char} :
    ∀ {prev : Bool} {s : List Char}, hasWWAux pat prev s = false →
    subWWAux pat repl prev 0 s = s := by
  intro prev s
  induction s generalizing prev with
  | nil => intro _; simp [subWWAux]
  | cons x rest ih =>
    intro h
    simp only [hasWWAux] at h
    by_cases hcond : prev = false ∧ pat ≠ [] ∧ wwAt pat (x :: rest) = true
    · rw [if_pos hcond] at h; exact absurd h (by simp)
    · rw [if_neg hcond] at h
      simp only [subWWAux]
      rw [if_neg hcond, ih h]

theorem convert_fold_mem {c : Char} :
    ∀ {rules : List (List Char × List Char)} {t : List Char},
    c ∈ rules.foldl (fun acc pr => subWW pr.1 pr.2 acc) t →
    c ∈ t ∨ ∃ pr ∈ rules, c ∈ pr.2 := by
  intro rules
  induction rules with
  | nil => intro t h; exact Or.inl h
  | cons r rs ih =>
    intro t h
    simp only [List.foldl_cons] at h
    rcases ih h with h' | ⟨pr, hpr, hc⟩
    · rcases mem_subWWAux h' with h'' | h''
      · exact Or.inr ⟨r, List.mem_cons_self _ _, h''⟩
      · exact Or.inl h''
    · exact Or.inr ⟨pr, List.mem_cons_of_mem _ hpr, hc⟩

theorem convert_fold_id {rules : List (List Char × List Char)} {t : List Char}
    (h : ∀ pr ∈ rules, hasWWMatch pr.1 t = false) :
    rules.foldl (fun acc pr => subWW pr.1 pr.2 acc) t = t := by
  induction rules with
  | nil => rfl
  | cons r rs ih =>
    simp only [List.foldl_cons]
    have h1 : subWW r.1 r.2 t = t :=
      subWWAux_id_of_no_match (h r (List.mem_cons_self _ _))
    rw [h1]
    exact ih (fun pr hpr => h pr (List.mem_cons_of_mem _ hpr))

theorem convert_brace_free {t : List Char} (h : braceCh ∉ t) :
    braceCh ∉ convert_to_second_person t := by
  intro hc
  unfold convert_to_second_person at hc
  have hrepl : ∀ pr ∈ conversions, braceCh ∉ pr.2 := by decide
  have hres : braceCh ∉ conversions.foldl (fun acc pr => subWW pr.1 pr.2 acc) t := by
    intro hm
    rcases convert_fold_mem hm with h' | ⟨pr, hpr, hc'⟩
    · exact h h'
    · exact hrepl pr hpr hc'
  revert hc hres
  generalize conversions.foldl (fun acc pr => subWW pr.1 pr.2 acc) t = result
  intro hc hres
  match result, t with
  | [], _ => exact hres hc
  | r :: rs, [] => exact hres hc
  | r :: rs, t0 :: ts =>
    dsimp only at hc
    split at hc
    · rcases List.mem_cons.mp hc with h' | h'
      · exact toUpperCh_ne_brace (fun hrb => hres (hrb ▸ List.mem_cons_self _ _)) h'.symm
      · exact hres (List.mem_cons_of_mem _ h')
    · exact hres hc

theorem convert_id_of_no_match {t : List Char}
    (h : ∀ pr ∈ conversions, hasWWMatch pr.1 t = false) :
    convert_to_second_person t = t := by
  unfold convert_to_second_person
  rw [convert_fold_id h]
  cases t with
  | nil => rfl
  | cons t0 ts => simp [lower_upper_disjoint t0]

theorem scanTopics_keys {ts : List (List Char × List (List Char))}
    {tl k : List Char} {v : Nat} :
    (k, v) ∈ (scanTopics ts tl).1 → ∃ kws, (k, kws) ∈ ts := by
  induction ts with
  | nil => intro h; simp [scanTopics] at h
  | cons p rest ih =>
    intro h
    obtain ⟨topic, kws⟩ := p
    rcases hst : scanTopics rest tl with ⟨scoresRest, elemsRest⟩
    simp only [scanTopics, hst] at h
    split at h
    · rcases List.mem_cons.mp h with h' | h'
      · exact ⟨kws, by rw [(Prod.mk.injEq _ _ _ _).mp h' |>.1]; exact List.mem_cons_self _ _⟩
      · obtain ⟨kws', hk⟩ := ih (hst ▸ h')
        exact ⟨kws', List.mem_cons_of_mem _ hk⟩
    · obtain ⟨kws', hk⟩ := ih (hst ▸ h)
      exact ⟨kws', List.mem_cons_of_mem _ hk⟩

theorem scanTopics_elems {ts : List (List Char × List (List Char))}
    {tl e : List Char} :
    e ∈ (scanTopics ts tl).2 → ∃ pr ∈ ts, e ∈ pr.2 := by
  induction ts with
  | nil => intro h; simp [scanTopics] at h
  | cons p rest ih =>
    intro h
    obtain ⟨topic, kws⟩ := p
    rcases hst : scanTopics rest tl with ⟨scoresRest, elemsRest⟩
    simp only [scanTopics, hst] at h
    split at h
    · rcases List.mem_append.mp h with h' | h'
      · exact ⟨(topic, kws), List.mem_cons_self _ _,
          List.mem_of_mem_filter h'⟩
      · obtain ⟨pr, hpr, he⟩ := ih (hst ▸ h')
        exact ⟨pr, List.mem_cons_of_mem _ hpr, he⟩
    · obtain ⟨pr, hpr, he⟩ := ih (hst ▸ h)
      exact ⟨pr, List.mem_cons_of_mem _ hpr, he⟩

theorem bump_keys {l : List (List Char × Nat)} {k k' : List Char} {v v' : Nat} :
    (k', v') ∈ bump l k v → (∃ v₀, (k', v₀) ∈ l) ∨ k' = k := by
  induction l with
  | nil =>
    intro h
    simp only [bump, List.mem_singleton] at h
    exact Or.inr ((Prod.mk.injEq _ _ _ _).mp h).1
  | cons p rest ih =>
    intro h
    obtain ⟨k0, v0⟩ := p
    simp only [bump] at h
    split at h
    · rcases List.mem_cons.mp h with h' | h'
      · exact Or.inl ⟨v0, by rw [((Prod.mk.injEq _ _ _ _).mp h').1]; exact List.mem_cons_self _ _⟩
      · exact Or.inl ⟨v', List.mem_cons_of_mem _ h'⟩
    · rcases List.mem_cons.mp h with h' | h'
      · exact Or.inl ⟨v', h' ▸ List.mem_cons_self _ _⟩
      · rcases ih h' with ⟨v₀, hm⟩ | he
        · exact Or.inl ⟨v₀, List.mem_cons_of_mem _ hm⟩
        · exact Or.inr he

theorem foldlBump_keys {α : Type} {hits : List α} {k k' : List Char}
    {v v' : Nat} :
    ∀ {sc : List (List Char × Nat)},
    (k', v') ∈ hits.foldl (fun s _ => bump s k v) sc →
    (∃ v₀, (k', v₀) ∈ sc) ∨ k' = k := by
  induction hits with
  | nil => intro sc h; exact Or.inl ⟨v', h⟩
  | cons x rest ih =>
    intro sc h
    simp only [List.foldl_cons] at h
    rcases ih h with ⟨v₀, hm⟩ | he
    · exact bump_keys hm
    · exact Or.inr he

theorem scanPatterns_keys {ps : List (List Char × List (List Char))}
    {tl k : List Char} {v : Nat} :
    ∀ {sc : List (List Char × Nat)},
    (k, v) ∈ (scanPatterns ps tl sc).1 →
    (∃ v₀, (k, v₀) ∈ sc) ∨ ∃ pr ∈ ps, k = underscoreHead pr.1 := by
  induction ps with
  | nil => intro sc h; exact Or.inl ⟨v, h⟩
  | cons p rest ih =>
    intro sc h
    obtain ⟨pname, pws⟩ := p
    rcases hsp : scanPatterns rest tl
        ((pws.filter (fun w => isSubB w tl)).foldl
          (fun s _ => bump s (underscoreHead pname) 5) sc) with ⟨scF, dF⟩
    simp only [scanPatterns, hsp] at h
    have h2 : (k, v) ∈ (scanPatterns rest tl
        ((pws.filter (fun w => isSubB w tl)).foldl
          (fun s _ => bump s (underscoreHead pname) 5) sc)).1 := by
      rw [hsp]; exact h
    rcases ih h2 with hsc | ⟨pr, hpr, he⟩
    · obtain ⟨v₀, hm⟩ := hsc
      rcases foldlBump_keys hm with hsc' | he'
      · exact Or.inl hsc'
      · exact Or.inr ⟨(pname, pws), List.mem_cons_self _ _, he'⟩
    · exact Or.inr ⟨pr, List.mem_cons_of_mem _ hpr, he⟩

theorem pyMaxAux_mem : ∀ (l : List (List Char × Nat)) (best : List Char × Nat),
    pyMaxAux best l = best ∨ pyMaxAux best l ∈ l := by
  intro l
  induction l with
  | nil => intro best; exact Or.inl rfl
  | cons p rest ih =>
    intro best
    simp only [pyMaxAux]
    split
    · rcases ih p with h | h
      · right; rw [h]; exact List.mem_cons_self _ _
      · exact Or.inr (List.mem_cons_of_mem _ h)
    · rcases ih best with h | h
      · exact Or.inl h
      · exact Or.inr (List.mem_cons_of_mem _ h)

theorem pyMaxAux_ge_best : ∀ (l : List (List Char × Nat))
    (best : List Char × Nat), best.2 ≤ (pyMaxAux best l).2 := by
  intro l
  induction l with
  | nil => intro best; exact Nat.le_refl _
  | cons p rest ih =>
    intro best
    simp only [pyMaxAux]
    split
    · rename_i hlt
      exact Nat.le_trans (Nat.le_of_lt hlt) (ih p)
    · exact ih best

theorem pyMaxAux_ge_all : ∀ (l : List (List Char × Nat))
    (best : List Char × Nat), ∀ q ∈ l, q.2 ≤ (pyMaxAux best l).2 := by
  intro l
  induction l with
  | nil => intro best q hq; simp at hq
  | cons p rest ih =>
    intro best q hq
    simp only [pyMaxAux]
    rcases List.mem_cons.mp hq with h | h
    · split
      · exact h ▸ pyMaxAux_ge_best rest p
      · rename_i hnl
        exact Nat.le_trans (h ▸ Nat.le_of_not_lt hnl) (pyMaxAux_ge_best rest best)
    · split
      · exact ih p q h
      · exact ih best q h

theorem mem_dedupFirst {x : List Char} : ∀ {l : List (List Char)},
    x ∈ dedupFirst l → x ∈ l := by
  intro l
  induction l with
  | nil => intro h; simp [dedupFirst] at h
  | cons y rest ih =>
    intro h
    simp only [dedupFirst] at h
    rcases List.mem_cons.mp h with h' | h'
    · exact h' ▸ List.mem_cons_self _ _
    · exact List.mem_cons_of_mem _ (ih (List.mem_of_mem_filter h'))

theorem identify_scores_eq (t : List Char) :
    (identify_context t).scores =
      (scanPatterns context_patterns (pyLower t)
        (scanTopics context_keywords (pyLower t)).1).1 := by
  unfold identify_context
  rcases hst : scanTopics context_keywords (pyLower t) with ⟨s1, ke⟩
  rcases hsp : scanPatterns context_patterns (pyLower t) s1 with ⟨cs, dp⟩
  simp [hst, hsp]

theorem identify_main_eq (t : List Char) :
    (identify_context t).main_context =
      match (identify_context t).scores with
      | [] => lc "general"
      | p :: rest => (pyMaxAux p rest).1 := by
  unfold identify_context
  rcases hst : scanTopics context_keywords (pyLower t) with ⟨s1, ke⟩
  rcases hsp : scanPatterns context_patterns (pyLower t) s1 with ⟨cs, dp⟩
  simp [hst, hsp]

theorem identify_context_score_eq (t : List Char) :
    (identify_context t).context_score =
      (lookupL (identify_context t).scores
        (identify_context t).main_context).getD 0 := by
  unfold identify_context
  rcases hst : scanTopics context_keywords (pyLower t) with ⟨s1, ke⟩
  rcases hsp : scanPatterns context_patterns (pyLower t) s1 with ⟨cs, dp⟩
  simp [hst, hsp]

theorem identify_key_elements_eq (t : List Char) :
    (identify_context t).key_elements =
      dedupFirst (scanTopics context_keywords (pyLower t)).2 := by
  unfold identify_context
  rcases hst : scanTopics context_keywords (pyLower t) with ⟨s1, ke⟩
  rcases hsp : scanPatterns context_patterns (pyLower t) s1 with ⟨cs, dp⟩
  simp [hst, hsp]

theorem identify_triggers_eq (t : List Char) :
    (identify_context t).emotional_triggers =
      emotion_triggers.filter (fun w => isSubB w (pyLower t)) := by
  unfold identify_context
  rcases hst : scanTopics context_keywords (pyLower t) with ⟨s1, ke⟩
  rcases hsp : scanPatterns context_patterns (pyLower t) s1 with ⟨cs, dp⟩
  simp [hst, hsp]

theorem identify_scores_key_names {t k : List Char} {v : Nat}
    (h : (k, v) ∈ (identify_context t).scores) : k ∈ extended_topic_names := by
  rw [identify_scores_eq] at h
  rcases scanPatterns_keys h with ⟨v₀, hm⟩ | ⟨pr, hpr, he⟩
  · obtain ⟨kws, hk⟩ := scanTopics_keys hm
    have hall : ∀ pr ∈ context_keywords, pr.1 ∈ extended_topic_names := by decide
    exact hall (k, kws) hk
  · have hall : ∀ pr ∈ context_patterns,
        underscoreHead pr.1 ∈ extended_topic_names := by decide
    exact he ▸ hall pr hpr

theorem identify_scores_key_ne_general {t k : List Char} {v : Nat}
    (h : (k, v) ∈ (identify_context t).scores) : k ≠ lc "general" := by
  rw [identify_scores_eq] at h
  rcases scanPatterns_keys h with ⟨v₀, hm⟩ | ⟨pr, hpr, he⟩
  · obtain ⟨kws, hk⟩ := scanTopics_keys hm
    have hall : ∀ pr ∈ context_keywords, pr.1 ≠ lc "general" := by decide
    exact hall (k, kws) hk
  · have hall : ∀ pr ∈ context_patterns,
        underscoreHead pr.1 ≠ lc "general" := by decide
    exact he ▸ hall pr hpr

theorem identify_main_mem (t : List Char) :
    (identify_context t).main_context ∈ extended_topic_names := by
  rw [identify_main_eq]
  rcases hs : (identify_context t).scores with _ | ⟨p, rest⟩
  · decide
  · dsimp only
    rcases pyMaxAux_mem rest p with h | h
    · rw [h]
      exact identify_scores_key_names (t := t) (v := p.2)
        (by rw [hs]; exact Prod.mk.eta ▸ List.mem_cons_self _ _)
    · exact identify_scores_key_names (t := t) (v := (pyMaxAux p rest).2)
        (by rw [hs]; exact Prod.mk.eta ▸ List.mem_cons_of_mem _ h)

theorem identify_general_iff (t : List Char) :
    (identify_context t).main_context = lc "general" ↔
      (identify_context t).scores = [] := by
  constructor
  · intro h
    rcases hs : (identify_context t).scores with _ | ⟨p, rest⟩
    · rfl
    · exfalso
      rw [identify_main_eq, hs] at h
      dsimp only at h
      rcases pyMaxAux_mem rest p with h' | h'
    
      · rw [h'] at h
        exact identify_scores_key_ne_general (t := t) (v := p.2)
          (by rw [hs]; exact Prod.mk.eta ▸ List.mem_cons_self _ _) h
      · exact identify_scores_key_ne_general (t := t)
          (v := (pyMaxAux p rest).2)
          (by rw [hs]; exact Prod.mk.eta ▸ List.mem_cons_of_mem _ h') h
  · intro h
    rw [identify_main_eq, h]

theorem scanTopics_keys_sublist (ts : List (List Char × List (List Char)))
    (tl : List Char) :
    ((scanTopics ts tl).1.map Prod.fst).Sublist (ts.map Prod.fst) := by
  induction ts with
  | nil => simp [scanTopics]
  | cons p rest ih =>
    obtain ⟨topic, kws⟩ := p
    rcases hst : scanTopics rest tl with ⟨scoresRest, elemsRest⟩
    simp only [scanTopics, hst]
    split
    · simp only [List.map_cons]
      exact List.Sublist.cons₂ topic (by simpa [hst] using ih)
    · simp only [List.map_cons]
      exact List.Sublist.cons _ (by simpa [hst] using ih)

theorem bump_keys_map (l : List (List Char × Nat)) (k : List Char) (v : Nat) :
    (bump l k v).map Prod.fst =
      if k ∈ l.map Prod.fst then l.map Prod.fst
      else l.map Prod.fst ++ [k] := by
  induction l with
  | nil => simp [bump]
  | cons p rest ih =>
    obtain ⟨k0, v0⟩ := p
    simp only [bump]
    by_cases he : k0 = k
    · rw [if_pos he]
      have : k ∈ ((k0, v0) :: rest).map Prod.fst := by
        simp [he.symm]
      rw [if_pos this]
      simp
    · rw [if_neg he]
      have hne : k ∈ ((k0, v0) :: rest).map Prod.fst ↔
          k ∈ rest.map Prod.fst := by
        simp [List.mem_cons]
        intro hk
        exact absurd hk.symm he
      by_cases hm : k ∈ rest.map Prod.fst
      · rw [if_pos (hne.mpr hm)]
        simp [ih, hm]
      · rw [if_neg (fun hx => hm (hne.mp hx))]
        simp [ih, hm]

theorem bump_nodup {l : List (List Char × Nat)} {k : List Char} {v : Nat}
    (h : (l.map Prod.fst).Nodup) : ((bump l k v).map Prod.fst).Nodup := by
  rw [bump_keys_map]
  split
  · exact h
  · rename_i hk
    have hperm := List.perm_append_singleton k (l.map Prod.fst)
    rw [List.Perm.nodup_iff hperm, List.nodup_cons]
    exact ⟨hk, h⟩

theorem foldlBump_nodup {α : Type} {hits : List α} {k : List Char} {v : Nat} :
    ∀ {sc : List (List Char × Nat)}, (sc.map Prod.fst).Nodup →
    (((hits.foldl (fun s _ => bump s k v) sc)).map Prod.fst).Nodup := by
  induction hits with
  | nil => intro sc h; exact h
  | cons x rest ih =>
    intro sc h
    simp only [List.foldl_cons]
    exact ih (bump_nodup h)

theorem scanPatterns_nodup {ps : List (List Char × List (List Char))}
    {tl : List Char} :
    ∀ {sc : List (List Char × Nat)}, (sc.map Prod.fst).Nodup →
    (((scanPatterns ps tl sc).1).map Prod.fst).Nodup := by
  induction ps with
  | nil => intro sc h; exact h
  | cons p rest ih =>
    intro sc h
    obtain ⟨pname, pws⟩ := p
    rcases hsp : scanPatterns rest tl
        ((pws.filter (fun w => isSubB w tl)).foldl
          (fun s _ => bump s (underscoreHead pname) 5) sc) with ⟨scF, dF⟩
    simp only [scanPatterns, hsp]
    have h2 : ((scanPatterns rest tl
        ((pws.filter (fun w => isSubB w tl)).foldl
          (fun s _ => bump s (underscoreHead pname) 5) sc)).1.map
        Prod.fst).Nodup :=
      ih (foldlBump_nodup h)
    rw [hsp] at h2
    exact h2

theorem identify_scores_nodup (t : List Char) :
    (((identify_context t).scores).map Prod.fst).Nodup := by
  rw [identify_scores_eq]
  apply scanPatterns_nodup
  have hsub := scanTopics_keys_sublist context_keywords (pyLower t)
  have hbase : ((context_keywords.map Prod.fst)).Nodup := by decide
  exact List.Sublist.nodup hsub hbase

theorem lookupL_of_mem_nodup {α : Type} :
    ∀ {l : List (List Char × α)}, ((l.map Prod.fst).Nodup) →
    ∀ {k : List Char} {v : α}, (k, v) ∈ l → lookupL l k = some v := by
  intro l
  induction l with
  | nil => intro _ k v h; simp at h
  | cons p rest ih =>
    intro hnd k v hm
    obtain ⟨k0, v0⟩ := p
    simp only [List.map_cons, List.nodup_cons] at hnd
    simp only [lookupL]
    rcases List.mem_cons.mp hm with h' | h'
    · obtain ⟨hk, hv⟩ := (Prod.mk.injEq _ _ _ _).mp h'
      rw [if_pos hk.symm, hv]
    · by_cases he : k0 = k
      · exfalso
        apply hnd.1
        rw [he]
        exact List.mem_map.mpr ⟨(k, v), h', rfl⟩
      · rw [if_neg he]
        exact ih hnd.2 h'

theorem identify_dominance (t : List Char) :
    ∀ q ∈ (identify_context t).scores,
      q.2 ≤ (identify_context t).context_score := by
  intro q hq
  rcases hs : (identify_context t).scores with _ | ⟨p, rest⟩
  · rw [hs] at hq; simp at hq
  · have hmain : (identify_context t).main_context = (pyMaxAux p rest).1 := by
      rw [identify_main_eq, hs]
    have hmem : pyMaxAux p rest ∈ p :: rest := by
      rcases pyMaxAux_mem rest p with h | h
      · rw [h]; exact List.mem_cons_self _ _
      · exact List.mem_cons_of_mem _ h
    have hlk : lookupL (identify_context t).scores
        (identify_context t).main_context = some (pyMaxAux p rest).2 := by
      rw [hmain]
      exact lookupL_of_mem_nodup (identify_scores_nodup t)
        (by rw [hs]; exact Prod.mk.eta ▸ hmem)
    rw [identify_context_score_eq, hlk]
    rw [hs] at hq
    rcases List.mem_cons.mp hq with h' | h'
    · exact h' ▸ pyMaxAux_ge_best rest p
    · exact pyMaxAux_ge_all rest p q h'

theorem pyMaxAux_first : ∀ (l : List (List Char × Nat))
    (best : List Char × Nat),
    ∃ pre post, best :: l = pre ++ (pyMaxAux best l) :: post ∧
      ∀ q ∈ pre, q.2 < (pyMaxAux best l).2 := by
  intro l
  induction l with
  | nil => intro best; exact ⟨[], [], rfl, by simp⟩
  | cons p rest ih =>
    intro best
    simp only [pyMaxAux]
    split
    · rename_i hlt
      obtain ⟨pre, post, heq, hlt'⟩ := ih p
      refine ⟨best :: pre, post, ?_, ?_⟩
      · rw [List.cons_append, ← heq]
      · intro q hq
        rcases List.mem_cons.mp hq with h' | h'
        · exact h' ▸ Nat.lt_of_lt_of_le hlt (pyMaxAux_ge_best rest p)
        · exact hlt' q h'
    · rename_i hnl
      obtain ⟨pre, post, heq, hlt'⟩ := ih best
      cases pre with
      | nil =>
        simp only [List.nil_append] at heq
        have hr : pyMaxAux best rest = best :=
          (((List.cons.injEq _ _ _ _).mp heq).1).symm
        refine ⟨[], p :: rest, ?_, by simp⟩
        rw [hr, List.nil_append]
      | cons x pre' =>
        rw [List.cons_append] at heq
        obtain ⟨hx, hrest⟩ := (List.cons.injEq _ _ _ _).mp heq
        have hbest_lt : best.2 < (pyMaxAux best rest).2 :=
          hlt' best (hx ▸ List.mem_cons_self _ _)
        refine ⟨best :: p :: pre', post, ?_, ?_⟩
        · rw [List.cons_append, List.cons_append, ← hrest]
        · intro q hq
          rcases List.mem_cons.mp hq with h' | h'
          · exact h' ▸ hbest_lt
          · rcases List.mem_cons.mp h' with h'' | h''
            · exact h'' ▸ Nat.lt_of_le_of_lt (Nat.le_of_not_lt hnl) hbest_lt
            · exact hlt' q (List.mem_cons_of_mem _ h'')

theorem identify_first_max (t : List Char)
    (h : (identify_context t).scores ≠ []) :
    ∃ pre post, (identify_context t).scores =
      pre ++ ((identify_context t).main_context,
        (identify_context t).context_score) :: post ∧
      ∀ q ∈ pre, q.2 < (identify_context t).context_score := by
  rcases hs : (identify_context t).scores with _ | ⟨p, rest⟩
  · exact absurd hs h
  · obtain ⟨pre, post, heq, hlt⟩ := pyMaxAux_first rest p
    have hmain : (identify_context t).main_context = (pyMaxAux p rest).1 := by
      rw [identify_main_eq, hs]
    have hmem : pyMaxAux p rest ∈ p :: rest := by
      rcases pyMaxAux_mem rest p with h' | h'
      · rw [h']; exact List.mem_cons_self _ _
      · exact List.mem_cons_of_mem _ h'
    have hscore : (identify_context t).context_score = (pyMaxAux p rest).2 := by
      have hlk : lookupL (identify_context t).scores
          (identify_context t).main_context = some (pyMaxAux p rest).2 := by
        rw [hmain]
        exact lookupL_of_mem_nodup (identify_scores_nodup t)
          (by rw [hs]; exact Prod.mk.eta ▸ hmem)
      rw [identify_context_score_eq, hlk]
      rfl
    refine ⟨pre, post, ?_, ?_⟩
    · have hpair : ((identify_context t).main_context,
          (identify_context t).context_score) = pyMaxAux p rest := by
        rw [hmain, hscore]
      rw [hpair]
      exact heq
    · rw [hscore]
      exact hlt

theorem mem_sentStep {c : Char} :
    ∀ {l cur : List Char} {inD : Bool} {s : List Char},
    s ∈ sentStep cur inD l → c ∈ s → c ∈ cur ∨ c ∈ l := by
  intro l
  induction l with
  | nil =>
    intro cur inD s hs hc
    simp only [sentStep, List.mem_singleton] at hs
    exact Or.inl (List.mem_reverse.mp (hs ▸ hc))
  | cons x rest ih =>
    intro cur inD s hs hc
    simp only [sentStep] at hs
    split at hs
    · rcases ih hs hc with h | h
      · exact Or.inl h
      · exact Or.inr (List.mem_cons_of_mem _ h)
    · split at hs
      · rcases List.mem_cons.mp hs with h' | h'
        · exact Or.inl (List.mem_reverse.mp (h' ▸ hc))
        · rcases ih h' hc with h | h
          · simp at h
          · exact Or.inr (List.mem_cons_of_mem _ h)
      · rcases ih hs hc with h | h
        · rcases List.mem_cons.mp h with h' | h'
          · exact Or.inr (h' ▸ List.mem_cons_self _ _)
          · exact Or.inl h'
        · exact Or.inr (List.mem_cons_of_mem _ h)

theorem mem_splitSentences {c : Char} {t s : List Char}
    (hs : s ∈ splitSentences t) (hc : c ∈ s) : c ∈ t := by
  unfold splitSentences at hs
  rcases mem_sentStep hs hc with h | h
  · simp at h
  · exact mem_pyStrip h

theorem mem_insertDesc {x y : List Char × Nat} :
    ∀ {l : List (List Char × Nat)}, x ∈ insertDesc y l → x = y ∨ x ∈ l := by
  intro l
  induction l with
  | nil => intro h; simp only [insertDesc, List.mem_singleton] at h; exact Or.inl h
  | cons z rest ih =>
    intro h
    simp only [insertDesc] at h
    split at h
    · rcases List.mem_cons.mp h with h' | h'
      · exact Or.inl h'
      · exact Or.inr h'
    · rcases List.mem_cons.mp h with h' | h'
      · exact Or.inr (h' ▸ List.mem_cons_self _ _)
      · rcases ih h' with h'' | h''
        · exact Or.inl h''
        · exact Or.inr (List.mem_cons_of_mem _ h'')

theorem mem_sortDescStable {x : List Char × Nat} :
    ∀ {l acc : List (List Char × Nat)},
    x ∈ l.foldl (fun a y => insertDesc y a) acc → x ∈ acc ∨ x ∈ l := by
  intro l
  induction l with
  | nil => intro acc h; exact Or.inl h
  | cons y rest ih =>
    intro acc h
    simp only [List.foldl_cons] at h
    rcases ih h with h' | h'
    · rcases mem_insertDesc h' with h'' | h''
      · exact Or.inr (h'' ▸ List.mem_cons_self _ _)
      · exact Or.inl h''
    · exact Or.inr (List.mem_cons_of_mem _ h')

theorem mem_extract_key_phrases {t p : List Char} {info : ContextInfo}
    (hp : p ∈ extract_key_phrases t info) {c : Char} (hc : c ∈ p) : c ∈ t := by
  unfold extract_key_phrases at hp
  obtain ⟨pair, hpair, hfst⟩ := List.mem_map.mp hp
  have h1 : pair ∈ sortDescStable _ := List.mem_of_mem_take hpair
  have h2 := mem_sortDescStable (h1 : pair ∈ List.foldl _ [] _)
  rcases h2 with h' | h'
  · simp at h'
  · obtain ⟨s, hsmem, hsome⟩ := List.mem_filterMap.mp h'
    have hps : s = pair.1 := by
      by_cases hr : 0 < phraseRelevance info (pyLower s)
      · rw [if_pos hr] at hsome
        exact congrArg Prod.fst (Option.some.injEq _ _ ▸ hsome.symm) |>.symm ▸ rfl
      · rw [if_neg hr] at hsome
        exact absurd hsome (by simp)
    obtain ⟨s0, hs0mem, hs0⟩ := List.mem_map.mp hsmem
    have hcp : c ∈ s := by rw [hps, hfst]; exact hc
    have hcs0 : c ∈ s0 := mem_pyStrip (hs0 ▸ hcp)
    exact mem_splitSentences (List.mem_of_mem_filter hs0mem) hcs0

theorem lookupL_mem {α : Type} :
    ∀ {l : List (List Char × α)} {k : List Char} {v : α},
    lookupL l k = some v → (k, v) ∈ l := by
  intro l
  induction l with
  | nil => intro k v h; simp [lookupL] at h
  | cons p rest ih =>
    intro k v h
    obtain ⟨k0, v0⟩ := p
    simp only [lookupL] at h
    split at h
    · rename_i he
      rw [he, (Option.some.injEq _ _).mp h]
      exact List.mem_cons_self _ _
    · exact List.mem_cons_of_mem _ (ih h)

theorem templates_skel_bf : ∀ pr ∈ empathetic_patterns, ∀ tpl ∈ pr.2,
    braceCh ∉ replaceAllCh (lc "{context}") [] tpl := by decide

theorem specific_summaries_bf : ∀ pr ∈ specific_summaries,
    braceCh ∉ pr.2 := by decide

theorem context_descriptions_bf : ∀ pr ∈ context_descriptions,
    braceCh ∉ pr.2 := by decide

theorem extended_topic_names_bf : ∀ n ∈ extended_topic_names,
    braceCh ∉ n := by decide

theorem emotion_triggers_bf : ∀ w ∈ emotion_triggers, braceCh ∉ w := by decide

theorem context_keywords_bf : ∀ pr ∈ context_keywords, ∀ e ∈ pr.2,
    braceCh ∉ e := by decide

theorem follow_up_phrases_bf : ∀ pr ∈ follow_up_phrases, ∀ s ∈ pr.2,
    braceCh ∉ s := by decide

theorem extra_followups_bf :
    (∀ s ∈ work_specific_followups, braceCh ∉ s) ∧
    (∀ s ∈ relationship_followups, braceCh ∉ s) ∧
    (∀ s ∈ transitions, braceCh ∉ s) := by decide

theorem identify_main_bf (t : List Char) :
    braceCh ∉ (identify_context t).main_context :=
  extended_topic_names_bf _ (identify_main_mem t)

theorem identify_triggers_bf {t tr : List Char}
    (h : tr ∈ (identify_context t).emotional_triggers) : braceCh ∉ tr := by
  rw [identify_triggers_eq] at h
  exact emotion_triggers_bf tr (List.mem_of_mem_filter h)

theorem identify_key_elements_bf {t e : List Char}
    (h : e ∈ (identify_context t).key_elements) : braceCh ∉ e := by
  rw [identify_key_elements_eq] at h
  obtain ⟨pr, hpr, he⟩ := scanTopics_elems (mem_dedupFirst h)
  exact context_keywords_bf pr hpr e he

theorem joinAnd_bf {es : List (List Char)} (h : ∀ e ∈ es, braceCh ∉ e) :
    braceCh ∉ joinAnd es := by
  induction es with
  | nil => simp [joinAnd]
  | cons e rest ih =>
    cases rest with
    | nil => exact h e (List.mem_cons_self _ _)
    | cons e2 rest2 =>
      simp only [joinAnd]
      intro hc
      rcases List.mem_append.mp hc with h' | h'
      · exact h e (List.mem_cons_self _ _) h'
      · rcases List.mem_append.mp h' with h'' | h''
        · revert h''; decide
        · exact ih (fun x hx => h x (List.mem_cons_of_mem _ hx)) h''

theorem specific_summary_bf {main sub : List Char}
    {triggers : List (List Char)} {past future : Bool}
    (hmain : braceCh ∉ main) (htr : ∀ tr ∈ triggers, braceCh ∉ tr) :
    braceCh ∉ generate_specific_context_summary main sub triggers past future := by
  unfold generate_specific_context_summary
  have hbase0 : braceCh ∉ (lookupL specific_summaries sub).getD
      (lc "what you're experiencing with " ++ main) := by
    rcases h : lookupL specific_summaries sub with _ | v
    · intro hc
      rcases List.mem_append.mp (by simpa using hc) with h' | h'
      · revert h'; decide
      · exact hmain h'
    · exact specific_summaries_bf (sub, v) (lookupL_mem h)
  have hbase1 : braceCh ∉ (if past then
      lc "what you went through with " ++
        replaceAllCh (lc "you're") (lc "you were")
          ((lookupL specific_summaries sub).getD
            (lc "what you're experiencing with " ++ main))
      else if future then lc "what you're anticipating with " ++
        ((lookupL specific_summaries sub).getD
          (lc "what you're experiencing with " ++ main))
      else ((lookupL specific_summaries sub).getD
        (lc "what you're experiencing with " ++ main))) := by
    split
    · intro hc
      rcases List.mem_append.mp hc with h' | h'
      · revert h'; decide
      · rcases mem_replAux h' with h'' | h''
        · revert h''; decide
        · exact hbase0 h''
    · split
      · intro hc
        rcases List.mem_append.mp hc with h' | h'
        · revert h'; decide
        · exact hbase0 h'
      · exact hbase0
  match triggers, htr with
  | [], _ => exact hbase1
  | tr :: rest, htr =>
    intro hc
    rcases List.mem_append.mp hc with h' | h'
    · revert h'; decide
    · rcases List.mem_append.mp h' with h'' | h''
      · exact htr tr (List.mem_cons_self _ _) h''
      · rcases List.mem_append.mp h'' with h3 | h3
        · revert h3; decide
        · exact hbase1 h3

theorem dropLeadingYou_subset {ch : Char} {l : List Char}
    (h : ch ∈ dropLeadingYou l) : ch ∈ l := by
  match l with
  | [] => exact h
  | [a] => exact h
  | [a, b] => exact h
  | a :: b :: d :: rest =>
    simp only [dropLeadingYou] at h
    split at h
    · exact List.mem_cons_of_mem _ (List.mem_cons_of_mem _
        (List.mem_cons_of_mem _ (List.dropWhile_subset _ h)))
    · exact h

theorem general_summary_bf {t main : List Char} {kps kels : List (List Char)}
    (hkps : ∀ p ∈ kps, ∀ ch ∈ p, ch ∈ t) (ht : braceCh ∉ t)
    (hkels : ∀ e ∈ kels, braceCh ∉ e) :
    braceCh ∉ generate_general_context_summary main kps kels := by
  match kps, hkps with
  | best :: rest, hkps =>
    have hbest : braceCh ∉ best :=
      fun hc => ht (hkps best (List.mem_cons_self _ _) braceCh hc)
    have h0 : braceCh ∉ convert_to_second_person best := convert_brace_free hbest
    have h1 : braceCh ∉
        pyStrip (dropLeadingYou (convert_to_second_person best)) :=
      fun hc => h0 (dropLeadingYou_subset (mem_pyStrip hc))
    have h2 : braceCh ∉
        pyLower (pyStrip (dropLeadingYou (convert_to_second_person best))) :=
      pyLower_brace_free h1
    unfold generate_general_context_summary
    dsimp only
    split
    · exact h2
    · intro hc
      rcases List.mem_append.mp hc with h' | h'
      · revert h'; decide
      · exact h2 h'
  | [], _ =>
    have hbase : braceCh ∉ (lookupL context_descriptions main).getD
        (lc "what you're going through") := by
      rcases h : lookupL context_descriptions main with _ | v
      · intro hc; revert hc; decide
      · exact context_descriptions_bf (main, v) (lookupL_mem h)
    unfold generate_general_context_summary
    dsimp only
    split
    · exact hbase
    · intro hc
      rcases List.mem_append.mp hc with h' | h'
      · revert h'; decide
      · refine joinAnd_bf ?_ h'
        intro e he
        exact hkels e (List.mem_of_mem_filter (List.mem_of_mem_take he))

theorem summary_bf (t : List Char) (ht : braceCh ∉ t) :
    braceCh ∉ generate_context_summary t := by
  unfold generate_context_summary
  rcases hsub : (identify_context t).sub_context with _ | sub
  · simp only [hsub]
    apply general_summary_bf ?_ ht
      (fun e he => identify_key_elements_bf he)
    intro p hp ch hch
    exact mem_extract_key_phrases hp hch
  · simp only [hsub]
    exact specific_summary_bf (identify_main_bf t)
      (fun tr htr => identify_triggers_bf htr)

theorem pickL_mem {α : Type} (l : List α) (d : α) (i : Nat) :
    pickL l d i ∈ l ∨ pickL l d i = d := by
  unfold pickL
  cases l with
  | nil => right; rfl
  | cons x rest =>
    left
    have hlt : i % (x :: rest).length < (x :: rest).length :=
      Nat.mod_lt _ (by simp)
    rw [List.getD_eq_getElem _ _ hlt]
    exact List.getElem_mem _

theorem mem_avail_pools {em x : List Char}
    (hx : x ∈ (lookupL empathetic_patterns em).getD
      ((lookupL empathetic_patterns (lc "neutral")).getD [])) :
    ∃ pr ∈ empathetic_patterns, x ∈ pr.2 := by
  rcases h : lookupL empathetic_patterns em with _ | pool
  · rw [h] at hx
    rcases h2 : lookupL empathetic_patterns (lc "neutral") with _ | pool2
    · rw [h2] at hx; simp at hx
    · rw [h2] at hx
      exact ⟨(lc "neutral", pool2), lookupL_mem h2, hx⟩
  · rw [h] at hx
    exact ⟨(em, pool), lookupL_mem h, hx⟩

theorem generate_main_response_eq
    (fu : List (List Char × List (List Char)))
    (text emotion : List Char) (i1 i2 i3 : Nat) :
    (generate_empathetic_response fu text emotion i1 i2 i3).main_response =
      replaceAllCh (lc "{context}")
        (generate_empathetic_response fu text emotion i1 i2 i3).context_summary
        (generate_empathetic_response fu text emotion i1 i2 i3).selected_pattern := by
  unfold generate_empathetic_response
  dsimp only
  split <;> rfl

theorem generate_context_summary_proj
    (fu : List (List Char × List (List Char)))
    (text emotion : List Char) (i1 i2 i3 : Nat) :
    (generate_empathetic_response fu text emotion i1 i2 i3).context_summary =
      generate_context_summary text := by
  unfold generate_empathetic_response
  dsimp only
  split <;> rfl

theorem generate_intensity_proj
    (fu : List (List Char × List (List Char)))
    (text emotion : List Char) (i1 i2 i3 : Nat) :
    (generate_empathetic_response fu text emotion i1 i2 i3).intensity =
      calculate_emotional_intensity text := by
  unfold generate_empathetic_response
  dsimp only
  split <;> rfl

theorem generate_response_eq
    (fu : List (List Char × List (List Char)))
    (text emotion : List Char) (i1 i2 i3 : Nat) :
    (generate_empathetic_response fu text emotion i1 i2 i3).response =
      (generate_empathetic_response fu text emotion i1 i2 i3).main_response ++
        ' ' ::
        (if (generate_empathetic_response fu text emotion i1 i2 i3).intensity =
            lc "high_intensity" then
          (generate_empathetic_response fu text emotion i1 i2 i3).follow_up
        else
          (generate_empathetic_response fu text emotion i1 i2 i3).transition ++
            pyLower (generate_empathetic_response fu text emotion i1 i2 i3).follow_up) := by
  unfold generate_empathetic_response
  dsimp only
  split
  · rename_i h
    simp [h]
  · rename_i h
    simp [h]

theorem response_ne_nil
    (fu : List (List Char × List (List Char)))
    (text emotion : List Char) (i1 i2 i3 : Nat) :
    (generate_empathetic_response fu text emotion i1 i2 i3).response ≠ [] := by
  rw [generate_response_eq]
  simp

theorem filterByIntensity_subset {intensity x : List Char}
    {pool : List (List Char)} (h : x ∈ filterByIntensity intensity pool) :
    x ∈ pool := by
  unfold filterByIntensity at h
  split at h
  · dsimp only at h
    split at h
    · exact h
    · exact List.mem_of_mem_filter h
  · exact h

theorem avail_skel_bf {em x : List Char} (hx : x ∈ availablePatternsFor em) :
    braceCh ∉ replaceAllCh (lc "{context}") [] x := by
  obtain ⟨pr, hpr, hmem⟩ := mem_avail_pools hx
  exact templates_skel_bf pr hpr x hmem

theorem generate_selected_proj
    (fu : List (List Char × List (List Char)))
    (text emotion : List Char) (i1 i2 i3 : Nat) :
    (generate_empathetic_response fu text emotion i1 i2 i3).selected_pattern =
      pickL (filterByIntensity (calculate_emotional_intensity text)
        (availablePatternsFor
          (resolveEmotion (identify_context text) text emotion))) [] i1 := by
  unfold generate_empathetic_response
  dsimp only
  split <;> rfl

theorem generate_follow_up_proj
    (fu : List (List Char × List (List Char)))
    (text emotion : List Char) (i1 i2 i3 : Nat) :
    (generate_empathetic_response fu text emotion i1 i2 i3).follow_up =
      pickL ((extendedFollowUps (identify_context text).main_context
        (resolveEmotion (identify_context text) text emotion)
        (calculate_emotional_intensity text)
        ((lookupL fu (calculate_emotional_intensity text)).getD [])).getD
        ((lookupL fu (calculate_emotional_intensity text)).getD [])) [] i2 := by
  unfold generate_empathetic_response
  dsimp only
  split <;> rfl

theorem generate_transition_proj
    (fu : List (List Char × List (List Char)))
    (text emotion : List Char) (i1 i2 i3 : Nat) :
    (generate_empathetic_response fu text emotion i1 i2 i3).transition = [] ∨
    (generate_empathetic_response fu text emotion i1 i2 i3).transition =
      pickL transitions [] i3 := by
  unfold generate_empathetic_response
  dsimp only
  split
  · exact Or.inl rfl
  · exact Or.inr rfl

theorem mem_lookup_base {fu : List (List Char × List (List Char))}
    {intensity x : List Char}
    (h : x ∈ (lookupL fu intensity).getD []) : ∃ pr ∈ fu, x ∈ pr.2 := by
  rcases hl : lookupL fu intensity with _ | pool
  · rw [hl] at h; simp at h
  · rw [hl] at h
    exact ⟨(intensity, pool), lookupL_mem hl, h⟩

theorem mem_extendedFollowUps {main em intensity x : List Char}
    {base : List (List Char)}
    (h : x ∈ (extendedFollowUps main em intensity base).getD base) :
    x ∈ base ∨ x ∈ work_specific_followups ∨ x ∈ relationship_followups := by
  unfold extendedFollowUps at h
  split at h
  · rcases List.mem_append.mp h with h' | h'
    · exact Or.inl h'
    · exact Or.inr (Or.inl h')
  · split at h
    · rcases List.mem_append.mp h with h' | h'
      · exact Or.inl h'
      · exact Or.inr (Or.inr h')
    · exact Or.inl h

theorem follow_up_bf
    {fu : List (List Char × List (List Char))}
    {text emotion : List Char} {i1 i2 i3 : Nat}
    (hfu : ∀ pr ∈ fu, ∀ s ∈ pr.2, braceCh ∉ s) :
    braceCh ∉ (generate_empathetic_response fu text emotion i1 i2 i3).follow_up := by
  rw [generate_follow_up_proj]
  rcases pickL_mem ((extendedFollowUps (identify_context text).main_context
      (resolveEmotion (identify_context text) text emotion)
      (calculate_emotional_intensity text)
      ((lookupL fu (calculate_emotional_intensity text)).getD [])).getD
      ((lookupL fu (calculate_emotional_intensity text)).getD [])) [] i2
    with hm | hd
  · rcases mem_extendedFollowUps hm with h' | h' | h'
    · obtain ⟨pr, hpr, hmem⟩ := mem_lookup_base h'
      exact hfu pr hpr _ hmem
    · exact extra_followups_bf.1 _ h'
    · exact extra_followups_bf.2.1 _ h'
  · rw [hd]; simp

theorem main_response_bf
    {fu : List (List Char × List (List Char))}
    {text emotion : List Char} {i1 i2 i3 : Nat}
    (ht : braceCh ∉ text) :
    braceCh ∉ (generate_empathetic_response fu text emotion i1 i2 i3).main_response := by
  rw [generate_main_response_eq, generate_context_summary_proj,
    generate_selected_proj]
  intro hc
  rcases mem_replAux_skel hc with h' | h'
  · exact summary_bf text ht h'
  · rcases pickL_mem (filterByIntensity (calculate_emotional_intensity text)
        (availablePatternsFor
          (resolveEmotion (identify_context text) text emotion))) [] i1
      with hm | hd
    · exact avail_skel_bf (filterByIntensity_subset hm) h'
    · rw [hd] at h'
      simp [replaceAllCh, replAux] at h'

theorem response_bf
    {fu : List (List Char × List (List Char))}
    {text emotion : List Char} {i1 i2 i3 : Nat}
    (ht : braceCh ∉ text)
    (hfu : ∀ pr ∈ fu, ∀ s ∈ pr.2, braceCh ∉ s) :
    braceCh ∉ (generate_empathetic_response fu text emotion i1 i2 i3).response := by
  rw [generate_response_eq]
  intro hc
  rcases List.mem_append.mp hc with h' | h'
  · exact main_response_bf ht h'
  · rcases List.mem_cons.mp h' with h'' | h''
    · revert h''; decide
    · revert h''
      split
      · intro h''
        exact follow_up_bf hfu h''
      · intro h''
        rcases List.mem_append.mp h'' with h3 | h3
        · rcases generate_transition_proj fu text emotion i1 i2 i3 with he | he
          · rw [he] at h3; simp at h3
          · rw [he] at h3
            rcases pickL_mem transitions [] i3 with hm | hd
            · exact extra_followups_bf.2.2 _ hm h3
            · rw [hd] at h3; simp at h3
        · exact pyLower_brace_free (follow_up_bf hfu) h3

theorem isSubB_subset : ∀ {s p : List Char}, isSubB p s = true →
    ∀ {c : Char}, c ∈ p → c ∈ s := by
  intro s
  induction s with
  | nil =>
    intro p h c hc
    simp only [isSubB, List.isEmpty_iff] at h
    subst h
    simp at hc
  | cons x rest ih =>
    intro p h c hc
    simp only [isSubB, Bool.or_eq_true] at h
    rcases h with h | h
    · exact ( List.isPrefixOf_iff_prefix.mp h).subset hc
    · exact List.mem_cons_of_mem _ (ih h hc)

theorem foldl_add_eq_sum {α : Type} (f : α → Nat) :
    ∀ (l : List α) (n : Nat),
    l.foldl (fun acc x => acc + f x) n = n + (l.map f).sum := by
  intro l
  induction l with
  | nil => intro n; simp
  | cons x rest ih =>
    intro n
    simp only [List.foldl_cons, List.map_cons, List.sum_cons]
    rw [ih]
    omega

theorem topicScore_eq_sum (kws : List (List Char)) (tl : List Char) :
    topicScore kws tl = (kws.map (fun k => kwPoints k tl)).sum := by
  unfold topicScore
  rw [foldl_add_eq_sum]
  simp

theorem kwPoints_cases (kw tl : List Char) :
    kwPoints kw tl = 0 ∨ kwPoints kw tl = 1 ∨ kwPoints kw tl = 3 := by
  unfold kwPoints
  split
  · right; right; rfl
  · split
    · right; left; rfl
    · left; rfl

theorem summary_fallback (t : List Char)
    (h1 : (identify_context t).sub_context = none)
    (h2 : extract_key_phrases t (identify_context t) = [])
    (h3 : (identify_context t).key_elements.filter
      (fun e => decide (3 < e.length)) = []) :
    generate_context_summary t =
      (lookupL context_descriptions (identify_context t).main_context).getD
        (lc "what you're going through") := by
  unfold generate_context_summary
  simp only [h1]
  rw [h2]
  unfold generate_general_context_summary
  rw [h3]
  simp

/-- C1: evaluation at the failing input.  One call on text "boss!!!"
(work topic, high intensity) with emotion "anger" leaves the engine's
`follow_up_phrases` table changed: the in-place
`follow_up_options.extend(...)` grows the aliased `high_intensity` pool
from 8 to 11 entries, so the table after the call differs from the table
constructed at initialization. -/
theorem c1_followup_mutation :
    (generate_empathetic_response follow_up_phrases (lc "boss!!!")
      (lc "anger") 0 0 0).follow_up_phrases_after ≠ follow_up_phrases ∧
    ((lookupL (generate_empathetic_response follow_up_phrases (lc "boss!!!")
      (lc "anger") 0 0 0).follow_up_phrases_after
      (lc "high_intensity")).getD []).length = 11 ∧
    ((lookupL follow_up_phrases (lc "high_intensity")).getD []).length = 8 :=
  ⟨by decide, by decide, by decide⟩

/-- C2 counterexample: for the input text
"I am so frustrated about \x7bcontext\x7d here" (any emotion, any random
outcome shown at draw indices 0), the returned response contains the
literal placeholder substring, because the key-phrase path copies the
user's text into the context summary and `str.format` does not touch the
substituted value. -/
theorem c2_placeholder_counterexample :
    isSubB (lc "{context}")
      (generate_empathetic_response follow_up_phrases
        (lc "I am so frustrated about {context} here")
        (lc "anger") 0 0 0).response = true := by decide

/-- C2 amended: for every (text, emotion) pair, every outcome of the
random choices and every follow-up table whose phrases contain no left
brace, the response is non-empty; and when the input text contains no left
brace, the response contains no literal placeholder substring. -/
theorem c2_placeholder_free (text emotion : List Char) (i1 i2 i3 : Nat)
    (fu : List (List Char × List (List Char)))
    (hfu : ∀ pr ∈ fu, ∀ s ∈ pr.2, braceCh ∉ s)
    (ht : braceCh ∉ text) :
    (generate_empathetic_response fu text emotion i1 i2 i3).response ≠ [] ∧
    isSubB (lc "{context}")
      (generate_empathetic_response fu text emotion i1 i2 i3).response =
      false := by
  refine ⟨response_ne_nil fu text emotion i1 i2 i3, ?_⟩
  by_contra h
  rw [Bool.not_eq_false] at h
  exact response_bf ht hfu (isSubB_subset h (by decide))

/-- C2 witness: concrete instance of `c2_placeholder_free`. -/
theorem c2_placeholder_free_witness :
    (generate_empathetic_response follow_up_phrases (lc "I am sad today")
      (lc "sadness") 0 0 0).response ≠ [] ∧
    isSubB (lc "{context}")
      (generate_empathetic_response follow_up_phrases (lc "I am sad today")
        (lc "sadness") 0 0 0).response = false :=
  c2_placeholder_free (lc "I am sad today") (lc "sadness") 0 0 0
    follow_up_phrases (by decide) (by decide)

/-- C3: on empty input text, for every emotion string and every random
outcome, `generate_empathetic_response` on the freshly initialized engine
state returns a non-empty string (the embedding is total, so no exception
is modelled), and `identify_context` of the empty text yields
main_context "general" with an empty matched-keyword list. -/
theorem c3_empty_text (emotion : List Char) (i1 i2 i3 : Nat) :
    (generate_empathetic_response follow_up_phrases [] emotion
      i1 i2 i3).response ≠ [] ∧
    (identify_context []).main_context = lc "general" ∧
    (identify_context []).key_elements = [] :=
  ⟨response_ne_nil _ _ _ _ _ _, by decide, by decide⟩

/-- C4 counterexample: for text "I am scared about my exam tomorrow" with
emotion label "unknown_label", the resolution step does not yield "fear":
the label misses both the handled-tag set and `emotion_mapping`, whose
`.get(emotion, 'neutral')` default routes it to the neutral branch before
any keyword check runs. -/
theorem c4_resolution_counterexample :
    (generate_empathetic_response follow_up_phrases
      (lc "I am scared about my exam tomorrow")
      (lc "unknown_label") 0 0 0).resolved_emotion ≠ lc "fear" := by decide

/-- C4 amended: on that input the emotion-resolution step of
`generate_empathetic_response` yields "neutral" (the unknown label
defaults to the neutral category, so the negative-keyword path that would
find "scared" is never reached), and `identify_context` sets the future
temporal flag because of "tomorrow". -/
theorem c4_resolution_neutral :
    (generate_empathetic_response follow_up_phrases
      (lc "I am scared about my exam tomorrow")
      (lc "unknown_label") 0 0 0).resolved_emotion = lc "neutral" ∧
    (identify_context (lc "I am scared about my exam tomorrow")).temporal_future
      = true :=
  ⟨by decide, by decide⟩

/-- C5 counterexample: on the text of three newline characters the code
returns low_intensity (the regex `.` in `(.)\1{2,}` does not match a
newline, so the run is not counted), while the claim's formula counts one
run of 3 identical characters, scores 2 and classifies medium_intensity. -/
theorem c5_newline_run_counterexample :
    calculate_emotional_intensity (lc "\n\n\n") = lc "low_intensity" ∧
    claimIntensityLevel (lc "\n\n\n") = lc "medium_intensity" ∧
    calculate_emotional_intensity (lc "\n\n\n") ≠
      claimIntensityLevel (lc "\n\n\n") :=
  ⟨by decide, by decide, by decide⟩

/-- C5 amended: for every text the returned level is exactly the claim's
classification of the score 2×count('!') + count('?') + (all-uppercase
words longer than 1) + 3×(high-tier hits) + (medium-tier hits) + 2×(runs
of 3+ identical consecutive non-newline characters, case-insensitive),
with high iff score > 4, medium iff 1 < score ≤ 4, low otherwise; the
result is always one of the three levels. -/
theorem c5_intensity_formula (t : List Char) :
    calculate_emotional_intensity t =
      (if 4 < 2 * t.count '!' + t.count '?' +
          ((splitWS t).filter
          (fun w => isUpperWord w && decide (1 < w.length))).length +
          3 * (((lookupL intensity_words (lc "high")).getD []).filter
            (fun w => isSubB w (pyLower t))).length +
          (((lookupL intensity_words (lc "medium")).getD []).filter
            (fun w => isSubB w (pyLower t))).length +
          2 * runScan (pyLower t)
        then lc "high_intensity"
        else if 1 < 2 * t.count '!' + t.count '?' +
          ((splitWS t).filter
          (fun w => isUpperWord w && decide (1 < w.length))).length +
          3 * (((lookupL intensity_words (lc "high")).getD []).filter
            (fun w => isSubB w (pyLower t))).length +
          (((lookupL intensity_words (lc "medium")).getD []).filter
            (fun w => isSubB w (pyLower t))).length +
          2 * runScan (pyLower t)
        then lc "medium_intensity"
        else lc "low_intensity") ∧
    (calculate_emotional_intensity t = lc "high_intensity" ∨
     calculate_emotional_intensity t = lc "medium_intensity" ∨
     calculate_emotional_intensity t = lc "low_intensity") := by
  constructor
  · have h : 2 * t.count '!' + t.count '?' +
        ((splitWS t).filter
          (fun w => isUpperWord w && decide (1 < w.length))).length +
        3 * (((lookupL intensity_words (lc "high")).getD []).filter
          (fun w => isSubB w (pyLower t))).length +
        (((lookupL intensity_words (lc "medium")).getD []).filter
          (fun w => isSubB w (pyLower t))).length +
        2 * runScan (pyLower t) = intensityScore t := by
      unfold intensityScore
      ring
    rw [h]
    rfl
  · unfold calculate_emotional_intensity
    split
    · exact Or.inl rfl
    · split
      · exact Or.inr (Or.inl rfl)
      · exact Or.inr (Or.inr rfl)

/-- C6: for every text in which none of the conversion patterns (the
first-person verb phrases, contractions and bare pronouns) occurs as a
whole word case-insensitively, `convert_to_second_person` returns the text
unchanged; in particular second-person text suffers no double
conversion. -/
theorem c6_no_marker_identity (text : List Char)
    (h : ∀ pr ∈ conversions, hasWWMatch pr.1 text = false) :
    convert_to_second_person text = text :=
  convert_id_of_no_match h

/-- C6 witness: concrete instance of `c6_no_marker_identity` on a text
already fully in second person. -/
theorem c6_no_marker_identity_witness :
    (∀ pr ∈ conversions,
      hasWWMatch pr.1 (lc "You are doing well, your work matters.") = false) ∧
    convert_to_second_person (lc "You are doing well, your work matters.") =
      lc "You are doing well, your work matters." :=
  ⟨by decide, c6_no_marker_identity _ (by decide)⟩

/-- C7 counterexample: in "i hate my boss." the keyword "boss" is a whole
word in the regex word-boundary sense (it is delimited by a space and a
period), yet the scoring loop of `identify_context` awards it only 1
point, because its whole-word test is the space-padded
`f' {keyword} ' in f' {text_lower} '` check, which punctuation defeats. -/
theorem c7_punctuation_counterexample :
    hasWWMatch (lc "boss") (pyLower (lc "I hate my boss.")) = true ∧
    kwPoints (lc "boss") (pyLower (lc "I hate my boss.")) = 1 ∧
    topicScore ((lookupL context_keywords (lc "work")).getD [])
      (pyLower (lc "I hate my boss.")) = 1 :=
  ⟨by decide, by decide, by decide⟩

/-- C7 amended: each topic's score is the sum over its keywords of the
per-keyword points, where a keyword scores exactly 3 when it occurs
space-delimited in the space-padded lowered text, otherwise exactly 1 when
it occurs as a bare substring (keywords adjacent to punctuation fall into
this case), otherwise 0; the two rules never both fire for the same
keyword, so every contribution is 0, 1 or 3. -/
theorem c7_keyword_scoring (kws : List (List Char)) (tl kw : List Char) :
    topicScore kws tl = (kws.map (fun k => kwPoints k tl)).sum ∧
    kwPoints kw tl = (if wholeWordSpaced kw tl then 3
      else if isSubB kw tl then 1 else 0) ∧
    (kwPoints kw tl = 0 ∨ kwPoints kw tl = 1 ∨ kwPoints kw tl = 3) :=
  ⟨topicScore_eq_sum kws tl, rfl, kwPoints_cases kw tl⟩

/-- C8 counterexample: for the text "exam" the returned main_context is
"academic" (the prefix of the pattern name academic_pressure before the
first underscore), which is not a member of the 9-topic ContextTopic
enumeration. -/
theorem c8_enumeration_counterexample :
    (identify_context (lc "exam")).main_context = lc "academic" ∧
    lc "academic" ∉ context_topic_enum :=
  ⟨by decide, by decide⟩

/-- C8 amended: for every text the main_context lies in the extended name
set (the 9 enumeration members plus "academic" and "life", the prefixes
that `pattern_name.split('_')[0]` produces for academic_pressure and
life_transition); it equals "general" exactly when no topic scored; every
scored topic's total is at most the main topic's recorded score; and when
some topic scored, the score list decomposes around the main entry with
every earlier entry strictly smaller (first-encounter tie-break). -/
theorem c8_main_context_argmax (t : List Char) :
    (identify_context t).main_context ∈ extended_topic_names ∧
    ((identify_context t).main_context = lc "general" ↔
      (identify_context t).scores = []) ∧
    (∀ q ∈ (identify_context t).scores,
      q.2 ≤ (identify_context t).context_score) ∧
    ((identify_context t).scores ≠ [] →
      ∃ pre post, (identify_context t).scores =
        pre ++ ((identify_context t).main_context,
          (identify_context t).context_score) :: post ∧
        ∀ q ∈ pre, q.2 < (identify_context t).context_score) :=
  ⟨identify_main_mem t, identify_general_iff t, identify_dominance t,
    identify_first_max t⟩

/-- C8 witness: concrete instance of `c8_main_context_argmax` at the text
"exam", discharging the membership and non-emptiness hypotheses. -/
theorem c8_main_context_argmax_witness :
    (identify_context (lc "exam")).main_context ∈ extended_topic_names ∧
    (3 : Nat) ≤ (identify_context (lc "exam")).context_score ∧
    (identify_context (lc "exam")).scores ≠ [] := by
  have h := c8_main_context_argmax (lc "exam")
  refine ⟨h.1, ?_, ?_⟩
  · exact h.2.2.1 (lc "school", 3) (by decide)
  · intro hnil
    have hgen := (h.2.1).mpr hnil
    revert hgen
    decide

/-- C9 counterexample: for the text "work" no sub-topic is detected and no
sentence qualifies as a key phrase, yet the summary is not the fixed
phrase "your work situation": the matched keyword "work" (longer than 3
characters) triggers the "the challenges with ..." branch. -/
theorem c9_fixed_phrase_counterexample :
    (identify_context (lc "work")).sub_context = none ∧
    extract_key_phrases (lc "work") (identify_context (lc "work")) = [] ∧
    (identify_context (lc "work")).main_context = lc "work" ∧
    generate_context_summary (lc "work") = lc "the challenges with work" ∧
    generate_context_summary (lc "work") ≠ lc "your work situation" :=
  ⟨by decide, by decide, by decide, by decide, by decide⟩

/-- C9 amended: whenever no sub-topic is detected, no sentence qualifies
as a key phrase, and additionally no matched keyword is longer than 3
characters, the summary is the fixed phrase keyed by main_topic from
`context_descriptions`, defaulting to "what you're going through". -/
theorem c9_fallback_phrase (t : List Char)
    (h1 : (identify_context t).sub_context = none)
    (h2 : extract_key_phrases t (identify_context t) = [])
    (h3 : (identify_context t).key_elements.filter
      (fun e => decide (3 < e.length)) = []) :
    generate_context_summary t =
      (lookupL context_descriptions (identify_context t).main_context).getD
        (lc "what you're going through") :=
  summary_fallback t h1 h2 h3

/-- C9 witness: concrete instance of `c9_fallback_phrase` at the text
"job" (a 3-character keyword), whose summary is the fixed phrase. -/
theorem c9_fallback_phrase_witness :
    generate_context_summary (lc "job") =
      (lookupL context_descriptions
        (identify_context (lc "job")).main_context).getD
        (lc "what you're going through") :=
  c9_fallback_phrase (lc "job") (by decide) (by decide) (by decide)

/-- C10 counterexample: for empty text with emotion "joy" (low intensity,
transition draw 1), the response is not the substituted template followed
by one space and the selected follow-up phrase verbatim: the non-high
branch inserts a transition and lower-cases the follow-up. -/
theorem c10_assembly_counterexample :
    (generate_empathetic_response follow_up_phrases [] (lc "joy")
      0 0 1).response ≠
    (generate_empathetic_response follow_up_phrases [] (lc "joy")
      0 0 1).main_response ++ ' ' ::
      (generate_empathetic_response follow_up_phrases [] (lc "joy")
        0 0 1).follow_up := by decide

/-- C10 amended: for every input and random outcome the response equals
the selected template with the context summary substituted for its
placeholder, one space, and then the follow-up phrase verbatim when
intensity is high, else the selected transition followed by the
lower-cased follow-up phrase. -/
theorem c10_assembly (fu : List (List Char × List (List Char)))
    (text emotion : List Char) (i1 i2 i3 : Nat) :
    (generate_empathetic_response fu text emotion i1 i2 i3).response =
      (generate_empathetic_response fu text emotion i1 i2 i3).main_response ++
        ' ' ::
        (if (generate_empathetic_response fu text emotion i1 i2 i3).intensity =
            lc "high_intensity" then
          (generate_empathetic_response fu text emotion i1 i2 i3).follow_up
        else
          (generate_empathetic_response fu text emotion i1 i2 i3).transition ++
            pyLower
              (generate_empathetic_response fu text emotion i1 i2 i3).follow_up) ∧
    (generate_empathetic_response fu text emotion i1 i2 i3).main_response =
      replaceAllCh (lc "{context}")
        (generate_empathetic_response fu text emotion i1 i2 i3).context_summary
        (generate_empathetic_response fu text emotion i1 i2 i3).selected_pattern :=
  ⟨generate_response_eq fu text emotion i1 i2 i3,
    generate_main_response_eq fu text emotion i1 i2 i3⟩
